import Mathlib

/-!
Shallow embedding of the LibraBFT-v2 simulator core (record store, pacemaker,
node state machine and data-sync handlers) and proofs about it.

Source files embedded: `librabft-v2/src/record_store.rs`, `pacemaker.rs`,
`node.rs`, `data_sync.rs`, `bft-lib/src/base_types.rs`, `configuration.rs`.

Modelling conventions:
* Rust `usize`/`u64` counters (rounds, epochs, weights, hashes) are `Nat`;
  `NodeTime`/`Duration` (`i64` milliseconds) are `Int`.
* `HashMap`s are association lists with insert-or-replace semantics
  (`alInsert`), `BTreeSet<Round>` is `Finset Nat`.
* The `SmrContext` trait object (hashing, signatures, command execution,
  epoch oracle) is a structure of pure functions `SmrCtx`; the standard
  library hash of a round (`DefaultHasher`) and the seeded RNG draw used by
  `pick_author` are modelled as the fields `hashRound` and `genTarget`.
* `.unwrap()` on lookups that cannot fail on well-formed stores is modelled
  by matching and stopping/defaulting on `none`; the record-store invariant
  `StoreInv` proved below shows those branches are unreachable on stores
  built by verified insertions.
* The backward quorum-certificate iterator is a fuel-indexed function;
  `qc_chainE` additionally distinguishes a failed lookup / exhausted fuel
  (`none`, a panic or divergence in the source) from normal termination at
  the initial hash.
-/

/-! ## Association-list finite maps (model of `std::collections::HashMap`) -/

def alGet {K V : Type} [DecidableEq K] (l : List (K × V)) (k : K) : Option V :=
  (l.find? (fun p => p.1 = k)).map (fun p => p.2)

def alContains {K V : Type} [DecidableEq K] (l : List (K × V)) (k : K) : Bool :=
  (alGet l k).isSome

/-- `HashMap::insert`: replace the binding if the key is present, else add it. -/
def alInsert {K V : Type} [DecidableEq K] : List (K × V) → K → V → List (K × V)
  | [], k, v => [(k, v)]
  | (k0, v0) :: rest, k, v =>
      if k0 = k then (k, v) :: rest else (k0, v0) :: alInsert rest k v

theorem alGet_alInsert_self {K V : Type} [DecidableEq K]
    (l : List (K × V)) (k : K) (v : V) : alGet (alInsert l k v) k = some v := by
  induction l with
  | nil => simp [alInsert, alGet, List.find?]
  | cons p rest ih =>
    obtain ⟨k0, v0⟩ := p
    by_cases h : k0 = k
    · simp [alInsert, h, alGet, List.find?]
    · simp only [alInsert, if_neg h]
      simp only [alGet, List.find?] at ih ⊢
      simp [h, ih]

theorem alContains_alInsert_self {K V : Type} [DecidableEq K]
    (l : List (K × V)) (k : K) (v : V) : alContains (alInsert l k v) k = true := by
  simp [alContains, alGet_alInsert_self]

theorem alGet_alInsert_ne {K V : Type} [DecidableEq K]
    (l : List (K × V)) (k k' : K) (v : V) (h : k' ≠ k) :
    alGet (alInsert l k v) k' = alGet l k' := by
  have hk' : ¬(k = k') := fun hh => h hh.symm
  induction l with
  | nil => simp [alInsert, alGet, List.find?, hk']
  | cons p rest ih =>
    obtain ⟨k0, v0⟩ := p
    by_cases hk : k0 = k
    · subst hk
      simp [alInsert, alGet, List.find?, hk']
    · simp only [alInsert, if_neg hk]
      by_cases hk0 : k0 = k'
      · simp [alGet, List.find?, hk0]
      · simp only [alGet, List.find?] at ih ⊢
        simp [hk0, ih]

theorem mem_alInsert {K V : Type} [DecidableEq K]
    (l : List (K × V)) (k : K) (v : V) (x : K × V) :
    x ∈ alInsert l k v → x = (k, v) ∨ x ∈ l := by
  induction l with
  | nil => simp [alInsert]
  | cons p rest ih =>
    obtain ⟨k0, v0⟩ := p
    by_cases hk : k0 = k
    · simp only [alInsert, if_pos hk]
      intro hx
      rcases List.mem_cons.mp hx with h1 | h2
      · exact Or.inl h1
      · exact Or.inr (List.mem_cons_of_mem _ h2)
    · simp only [alInsert, if_neg hk]
      intro hx
      rcases List.mem_cons.mp hx with h1 | h2
      · exact Or.inr (h1 ▸ List.mem_cons_self _ _)
      · rcases ih h2 with h3 | h4
        · exact Or.inl h3
        · exact Or.inr (List.mem_cons_of_mem _ h4)

theorem alGet_mem {K V : Type} [DecidableEq K]
    (l : List (K × V)) (k : K) (v : V) (h : alGet l k = some v) : (k, v) ∈ l := by
  induction l with
  | nil => simp [alGet, List.find?] at h
  | cons p rest ih =>
    obtain ⟨k0, v0⟩ := p
    by_cases hk : k0 = k
    · subst hk
      simp [alGet, List.find?] at h
      simp [h]
    · have h' : alGet rest k = some v := by
        simpa [alGet, List.find?, hk] using h
      exact List.mem_cons_of_mem _ (ih h')

/-! ## Base types (`bft-lib/src/base_types.rs`, `librabft-v2/src/base_types.rs`) -/

/-
`Round(pub usize)`, `EpochId(pub usize)`, `Author` identities and voting
weights are plain naturals below; `NodeTime(pub i64)` and `Duration = i64`
(milliseconds) are integers.
-/

/-- `NodeTime::never() = i64::MAX`. -/
def NodeTime.never : Int := 2 ^ 63 - 1

/-- Domain-separated block hash wrapper. -/
structure BlockHash where
  h : Nat
deriving DecidableEq, Repr

/-- Domain-separated quorum-certificate hash wrapper. -/
structure QuorumCertificateHash where
  h : Nat
deriving DecidableEq, Repr

/-- `EpochId::previous` exactly as written in `bft-lib/src/base_types.rs`
(note: the non-zero branch returns `self`, not `self - 1`). -/
def EpochId.previous (e : Nat) : Option Nat :=
  if e = 0 then none else some e

/-! ## Records (`librabft-v2/src/record.rs`) -/

structure Block_ where
  command : Nat
  time : Int
  previous_quorum_certificate_hash : QuorumCertificateHash
  round : Nat
  author : Nat
deriving DecidableEq, Repr

structure Vote_ where
  epoch_id : Nat
  round : Nat
  certified_block_hash : BlockHash
  state : Nat
  committed_state : Option Nat
  author : Nat
deriving DecidableEq, Repr

structure QuorumCertificate_ where
  epoch_id : Nat
  round : Nat
  certified_block_hash : BlockHash
  state : Nat
  committed_state : Option Nat
  votes : List (Nat × Nat)
  author : Nat
deriving DecidableEq, Repr

structure Timeout_ where
  epoch_id : Nat
  round : Nat
  highest_certified_block_round : Nat
  author : Nat
deriving DecidableEq, Repr

/-- `SignedValue<T, S>` from `bft-lib/src/smr_context.rs`. -/
structure SignedValue (T : Type) where
  value : T
  signature : Nat
deriving DecidableEq, Repr

abbrev Block := SignedValue Block_
abbrev Vote := SignedValue Vote_
abbrev QuorumCertificate := SignedValue QuorumCertificate_
abbrev Timeout := SignedValue Timeout_

inductive Record where
  | block (b : Block)
  | vote (v : Vote)
  | quorumCertificate (qc : QuorumCertificate)
  | timeout (t : Timeout)
deriving DecidableEq, Repr

/-! ## Epoch configuration (`bft-lib/src/configuration.rs`) -/

structure EpochConfiguration where
  /-- `authors: Vec<(Nat, usize)>`; the `voting_rights` hash map and
  `total_votes` are derived from it at construction. -/
  authors : List (Nat × Nat)
deriving DecidableEq, Repr

def EpochConfiguration.total_votes (c : EpochConfiguration) : Nat :=
  (c.authors.map (fun p => p.2)).sum

def EpochConfiguration.weight (c : EpochConfiguration) (a : Nat) : Nat :=
  (alGet c.authors a).getD 0

def EpochConfiguration.quorum_threshold (c : EpochConfiguration) : Nat :=
  2 * c.total_votes / 3 + 1

def EpochConfiguration.validity_threshold (c : EpochConfiguration) : Nat :=
  (c.total_votes + 2) / 3

/-- Cumulative-weight scan of `pick_author`, given the RNG draw `target`.
The empty-list case is `unreachable!()` in the source. -/
def pickAuthorScan : List (Nat × Nat) → Nat → Nat
  | [], _ => 0
  | (a, w) :: rest, target => if target < w then a else pickAuthorScan rest (target - w)

/-! ## The SMR context (`bft-lib/src/smr_context.rs` trait object) -/

/-- Pure-function model of the `SmrContext` capability object plus the two
standard-library functions used by leader election (`DefaultHasher` over a
round, and the seeded `Xoshiro256StarStar` draw in `pick_author`). -/
structure SmrCtx where
  author : Nat
  hashB : Block_ → Nat
  hashV : Vote_ → Nat
  hashQ : QuorumCertificate_ → Nat
  hashT : Timeout_ → Nat
  /-- hash of an `Nat` (the genesis QC hash of an epoch). -/
  hashE : Nat → Nat
  verify : Nat → Nat → Nat → Bool
  sign : Nat → Nat
  /-- `compute(base_state, command, time, previous_voters, previous_author)`. -/
  compute : Nat → Nat → Int → List Nat → Option Nat → Option Nat
  fetch : Option Nat
  read_epoch_id : Nat → Nat
  config_of : Nat → EpochConfiguration
  /-- `DefaultHasher` seed obtained from hashing a round. -/
  hashRound : Nat → Nat
  /-- `rng.gen_range(0..total)` for the xoshiro RNG seeded with `seed`. -/
  genTarget : Nat → Nat → Nat

def EpochConfiguration.pick_author (c : EpochConfiguration) (ctx : SmrCtx)
    (seed : Nat) : Nat :=
  pickAuthorScan c.authors (ctx.genTarget seed c.total_votes)

/-! ## Record store state (`librabft-v2/src/record_store.rs`) -/

inductive ElectionState where
  | ongoing (ballot : List ((BlockHash × Nat) × Nat))
  | won (block_hash : BlockHash) (state : Nat)
  | closed
deriving DecidableEq, Repr

structure RecordStoreState where
  epoch_id : Nat
  configuration : EpochConfiguration
  initial_hash : QuorumCertificateHash
  initial_state : Nat
  blocks : List (BlockHash × Block)
  quorum_certificates : List (QuorumCertificateHash × QuorumCertificate)
  current_proposed_block : Option BlockHash
  highest_quorum_certificate_round : Nat
  highest_quorum_certificate_hash : QuorumCertificateHash
  highest_timeout_certificate_round : Nat
  current_round : Nat
  highest_committed_round : Nat
  highest_commit_certificate_hash : Option QuorumCertificateHash
  highest_timeout_certificate : Option (List Timeout)
  current_timeouts : List (Nat × Timeout)
  current_votes : List (Nat × Vote)
  current_timeouts_weight : Nat
  current_election : ElectionState
deriving DecidableEq, Repr

def RecordStoreState.new (initial_hash : QuorumCertificateHash)
    (initial_state : Nat) (epoch_id : Nat)
    (configuration : EpochConfiguration) : RecordStoreState where
  epoch_id := epoch_id
  configuration := configuration
  initial_hash := initial_hash
  initial_state := initial_state
  blocks := []
  quorum_certificates := []
  current_proposed_block := none
  highest_quorum_certificate_round := 0
  highest_quorum_certificate_hash := initial_hash
  highest_timeout_certificate_round := 0
  current_round := 1
  highest_committed_round := 0
  highest_commit_certificate_hash := none
  highest_timeout_certificate := none
  current_timeouts := []
  current_votes := []
  current_timeouts_weight := 0
  current_election := .ongoing []

def RecordStoreState.block (s : RecordStoreState) (h : BlockHash) : Option Block :=
  alGet s.blocks h

def RecordStoreState.quorum_certificate (s : RecordStoreState)
    (h : QuorumCertificateHash) : Option QuorumCertificate :=
  alGet s.quorum_certificates h

/-- One step of `BackwardQuorumCertificateIterator::next`, fuel-indexed.
A failed lookup (an `.unwrap()` panic in the source) stops the walk;
`qc_chainE` below tracks those failures explicitly. -/
def qc_chain (s : RecordStoreState) : QuorumCertificateHash → Nat → List QuorumCertificate
  | _, 0 => []
  | h, fuel + 1 =>
    if h = s.initial_hash then []
    else
      match s.quorum_certificate h with
      | none => []
      | some qc =>
        match s.block qc.value.certified_block_hash with
        | none => []
        | some b => qc :: qc_chain s b.value.previous_quorum_certificate_hash fuel

/-- The same walk, but distinguishing a failed lookup or exhausted fuel
(`none`: a panic or divergence of the source iterator) from reaching the
initial hash (`some` chain). -/
def qc_chainE (s : RecordStoreState) : QuorumCertificateHash → Nat → Option (List QuorumCertificate)
  | h, 0 => if h = s.initial_hash then some [] else none
  | h, fuel + 1 =>
    if h = s.initial_hash then some []
    else
      match s.quorum_certificate h with
      | none => none
      | some qc =>
        match s.block qc.value.certified_block_hash with
        | none => none
        | some b =>
          (qc_chainE s b.value.previous_quorum_certificate_hash fuel).map
            (fun rest => qc :: rest)

/-- Default fuel: on an invariant-satisfying store the backward chain visits
pairwise-distinct stored QCs, so this always suffices. -/
def RecordStoreState.fuel (s : RecordStoreState) : Nat :=
  s.quorum_certificates.length + 1

def RecordStoreState.ancestor_rounds (s : RecordStoreState)
    (h : QuorumCertificateHash) : List Nat :=
  (qc_chain s h s.fuel).map (fun qc => qc.value.round)

def RecordStoreState.update_current_round (s : RecordStoreState) (round : Nat) :
    RecordStoreState :=
  if round ≤ s.current_round then s
  else
    { s with
      current_round := round
      current_proposed_block := none
      current_timeouts := []
      current_votes := []
      current_timeouts_weight := 0
      current_election := .ongoing [] }

/-- `update_commit_3chain_round`: reads the three topmost rounds of the
backward chain from `qc_hash` (the source iterator is lazy, so only three
steps are taken). -/
def RecordStoreState.update_commit_3chain_round (s : RecordStoreState)
    (qc_hash : QuorumCertificateHash) : RecordStoreState :=
  let rounds := (qc_chain s qc_hash 3).map (fun qc => qc.value.round)
  match rounds.get? 0, rounds.get? 1, rounds.get? 2 with
  | some r3, some r2, some r1 =>
    if r3 = r2 + 1 ∧ r2 = r1 + 1 ∧ r1 > s.highest_committed_round then
      { s with highest_committed_round := r1,
               highest_commit_certificate_hash := some qc_hash }
    else s
  | _, _, _ => s

/-- `vote_committed_state`: the 3-chain-derived committed state for a block.
A missing block is an `.unwrap()` panic in the source, modelled as `none`. -/
def RecordStoreState.vote_committed_state (s : RecordStoreState)
    (block_hash : BlockHash) : Option Nat :=
  match s.block block_hash with
  | none => none
  | some b =>
    let r3 := b.value.round
    let chain := qc_chain s b.value.previous_quorum_certificate_hash 2
    match chain.get? 0, chain.get? 1 with
    | some qc2, some qc1 =>
      if r3 = qc2.value.round + 1 ∧ qc2.value.round = qc1.value.round + 1 then
        some qc1.value.state
      else none
    | _, _ => none

/-- `PacemakerState::leader` (in `pacemaker.rs`): hash the round, then pick an
author with probability proportional to voting rights. -/
def leader (ctx : SmrCtx) (s : RecordStoreState) (round : Nat) : Nat :=
  s.configuration.pick_author ctx (ctx.hashRound round)

/-- `compute_state`: execute the block's command on top of the parent state.
Missing lookups are `.unwrap()` panics in the source, modelled as `none`. -/
def RecordStoreState.compute_state (s : RecordStoreState) (block_hash : BlockHash)
    (ctx : SmrCtx) : Option Nat :=
  match s.block block_hash with
  | none => none
  | some b =>
    if b.value.previous_quorum_certificate_hash = s.initial_hash then
      ctx.compute s.initial_state b.value.command b.value.time [] none
    else
      match s.quorum_certificate b.value.previous_quorum_certificate_hash with
      | none => none
      | some pqc =>
        ctx.compute pqc.value.state b.value.command b.value.time
          (pqc.value.votes.map (fun p => p.1)) (some pqc.value.author)

/-- `verify_network_record`. Returns the record's hash when every check
passes, `none` when some `ensure!`/signature check fails (the error messages
are dropped). The checks appear in source order; within the QC branch the
per-vote signature checks and the weight sum are folded into one pass as in
the source loop. -/
def RecordStoreState.verify_network_record (s : RecordStoreState) (ctx : SmrCtx) :
    Record → Option Nat
  | .block b =>
    let hash := ctx.hashB b.value
    if alContains s.blocks (BlockHash.mk hash) then none
    else if ¬ ctx.verify b.value.author hash b.signature then none
    else if b.value.previous_quorum_certificate_hash = s.initial_hash then
      if b.value.round > 0 then some hash else none
    else
      match s.quorum_certificate b.value.previous_quorum_certificate_hash with
      | none => none
      | some previous_qc =>
        match s.block previous_qc.value.certified_block_hash with
        | none => none
        | some previous_block =>
          if b.value.round > previous_block.value.round then some hash else none
  | .vote v =>
    let hash := ctx.hashV v.value
    if v.value.epoch_id ≠ s.epoch_id then none
    else
      match s.block v.value.certified_block_hash with
      | none => none
      | some b =>
        if b.value.round ≠ v.value.round then none
        else if s.vote_committed_state v.value.certified_block_hash ≠
            v.value.committed_state then none
        else if v.value.round ≠ s.current_round then none
        else if alContains s.current_votes v.value.author then none
        else if ctx.verify v.value.author hash v.signature then some hash else none
  | .quorumCertificate qc =>
    let hash := ctx.hashQ qc.value
    if qc.value.epoch_id ≠ s.epoch_id then none
    else if alContains s.quorum_certificates (QuorumCertificateHash.mk hash) then none
    else
      match s.block qc.value.certified_block_hash with
      | none => none
      | some b =>
        if b.value.round ≠ qc.value.round then none
        else if qc.value.author ≠ b.value.author then none
        else if s.vote_committed_state qc.value.certified_block_hash ≠
            qc.value.committed_state then none
        else if ¬ qc.value.votes.all (fun p =>
            ctx.verify p.1
              (ctx.hashV
                { epoch_id := s.epoch_id
                  round := qc.value.round
                  certified_block_hash := qc.value.certified_block_hash
                  state := qc.value.state
                  committed_state := qc.value.committed_state
                  author := p.1 })
              p.2) then none
        else if (qc.value.votes.map (fun p => s.configuration.weight p.1)).sum <
            s.configuration.quorum_threshold then none
        else if ctx.verify qc.value.author hash qc.signature then some hash else none
  | .timeout t =>
    let hash := ctx.hashT t.value
    if t.value.epoch_id ≠ s.epoch_id then none
    else if t.value.highest_certified_block_round >
        s.highest_quorum_certificate_round then none
    else if t.value.round ≠ s.current_round then none
    else if alContains s.current_timeouts t.value.author then none
    else if ctx.verify t.value.author hash t.signature then some hash else none

/-- `try_insert_network_record`: verification followed by the per-record
mutation. The boolean is `Ok`/`Err`; note that a QC failing the execution
check stays inserted in `quorum_certificates` (the source returns `Err`
after the `insert` call). -/
def RecordStoreState.try_insert_network_record (s : RecordStoreState) (ctx : SmrCtx)
    (record : Record) : RecordStoreState × Bool :=
  match s.verify_network_record ctx record with
  | none => (s, false)
  | some hash =>
    match record with
    | .block b =>
      let block_hash := BlockHash.mk hash
      let s1 :=
        if b.value.round = s.current_round ∧ leader ctx s b.value.round = b.value.author
        then { s with current_proposed_block := some block_hash }
        else s
      ({ s1 with blocks := alInsert s1.blocks block_hash b }, true)
    | .vote v =>
      let s1 := { s with current_votes := alInsert s.current_votes v.value.author v }
      match s1.current_election with
      | .ongoing ballot =>
        let key := (v.value.certified_block_hash, v.value.state)
        let entry := (alGet ballot key).getD 0 + s.configuration.weight v.value.author
        if entry ≥ s.configuration.quorum_threshold then
          ({ s1 with current_election := .won v.value.certified_block_hash v.value.state },
           true)
        else
          ({ s1 with current_election := .ongoing (alInsert ballot key entry) }, true)
      | _ => (s1, true)
    | .quorumCertificate qc =>
      let block_hash := qc.value.certified_block_hash
      let qc_hash := QuorumCertificateHash.mk hash
      let qc_round := qc.value.round
      let qc_state := qc.value.state
      let s1 := { s with quorum_certificates := alInsert s.quorum_certificates qc_hash qc }
      match s1.compute_state block_hash ctx with
      | some state =>
        if state = qc_state then
          let s2 :=
            if qc_round > s1.highest_quorum_certificate_round then
              { s1 with highest_quorum_certificate_round := qc_round
                        highest_quorum_certificate_hash := qc_hash }
            else s1
          let s3 := s2.update_current_round (qc_round + 1)
          (s3.update_commit_3chain_round qc_hash, true)
        else (s1, false)
      | none => (s1, false)
    | .timeout t =>
      let s1 : RecordStoreState :=
        { s with
          current_timeouts := alInsert s.current_timeouts t.value.author t
          current_timeouts_weight :=
            s.current_timeouts_weight + s.configuration.weight t.value.author }
      if s1.current_timeouts_weight ≥ s.configuration.quorum_threshold then
        let s2 : RecordStoreState :=
          { s1 with
            highest_timeout_certificate :=
              some (s1.current_timeouts.map (fun p => p.2))
            highest_timeout_certificate_round := s1.current_round }
        (s2.update_current_round (s2.current_round + 1), true)
      else (s1, true)

/-- `insert_network_record`: errors from `try_insert_network_record` are
logged and dropped. -/
def RecordStoreState.insert_network_record (s : RecordStoreState) (ctx : SmrCtx)
    (record : Record) : RecordStoreState :=
  (s.try_insert_network_record ctx record).1

/-! ## Record store: derived queries and local producers -/

def RecordStoreState.previous_round (s : RecordStoreState) (block_hash : BlockHash) :
    Nat :=
  match s.block block_hash with
  | none => 0
  | some b =>
    let hash := b.value.previous_quorum_certificate_hash
    if hash = s.initial_hash then 0
    else
      match s.quorum_certificate hash with
      | none => 0
      | some qc =>
        match s.block qc.value.certified_block_hash with
        | none => 0
        | some b2 => b2.value.round

def RecordStoreState.second_previous_round (s : RecordStoreState)
    (block_hash : BlockHash) : Nat :=
  match s.block block_hash with
  | none => 0
  | some b =>
    let hash := b.value.previous_quorum_certificate_hash
    if hash = s.initial_hash then 0
    else
      match s.quorum_certificate hash with
      | none => 0
      | some qc => s.previous_round qc.value.certified_block_hash

def RecordStoreState.has_timeout (s : RecordStoreState) (author : Nat)
    (round : Nat) : Bool :=
  round = s.current_round && alContains s.current_timeouts author

def RecordStoreState.committed_states_after (s : RecordStoreState)
    (after_round : Nat) : List (Nat × Nat) :=
  let cc_hash := s.highest_commit_certificate_hash.getD s.initial_hash
  let chain := qc_chain s cc_hash s.fuel
  ((((chain.drop 2).takeWhile (fun qc => after_round < qc.value.round)).map
    (fun qc => (qc.value.round, qc.value.state))).reverse)

def RecordStoreState.timeouts (s : RecordStoreState) : List Timeout :=
  (s.highest_timeout_certificate.getD []) ++ s.current_timeouts.map (fun p => p.2)

def RecordStoreState.current_vote (s : RecordStoreState) (local_author : Nat) :
    Option Vote :=
  alGet s.current_votes local_author

def is_power2_minus1 (x : Nat) : Bool :=
  x &&& (x + 1) = 0

def RecordStoreState.known_quorum_certificate_rounds (s : RecordStoreState) :
    Finset Nat :=
  let pick := fun (l : List Nat) =>
    (l.enum.filterMap (fun p => if is_power2_minus1 p.1 then some p.2 else none))
  let l1 := pick (s.ancestor_rounds s.highest_quorum_certificate_hash)
  let l2 := pick (s.ancestor_rounds (s.highest_commit_certificate_hash.getD s.initial_hash))
  (l1 ++ l2).foldl (fun acc r => insert r acc) ∅

/-- `create_timeout`: sign a fresh timeout and route it through
`insert_network_record` (`SignedValue::make` hashes then signs). -/
def RecordStoreState.create_timeout (s : RecordStoreState) (author : Nat)
    (round : Nat) (ctx : SmrCtx) : RecordStoreState :=
  let value : Timeout_ :=
    { epoch_id := s.epoch_id
      round := round
      highest_certified_block_round := s.highest_quorum_certificate_round
      author := author }
  s.insert_network_record ctx (.timeout ⟨value, ctx.sign (ctx.hashT value)⟩)

/-- `propose_block`: fetch a command from the mempool and propose. -/
def RecordStoreState.propose_block (s : RecordStoreState) (ctx : SmrCtx)
    (previous_quorum_certificate_hash : QuorumCertificateHash) (time : Int) :
    RecordStoreState :=
  match ctx.fetch with
  | none => s
  | some command =>
    let value : Block_ :=
      { command := command
        time := time
        previous_quorum_certificate_hash := previous_quorum_certificate_hash
        round := s.current_round
        author := ctx.author }
    s.insert_network_record ctx (.block ⟨value, ctx.sign (ctx.hashB value)⟩)

/-- `create_vote`: execute the block and vote for the resulting state. The
source returns `bool`; the created vote value is also returned here (as
`some v` exactly when the source returns `true`) so that statements about
emitted votes can refer to it. -/
def RecordStoreState.create_vote (s : RecordStoreState) (ctx : SmrCtx)
    (certified_block_hash : BlockHash) : RecordStoreState × Option Vote_ :=
  let committed_state := s.vote_committed_state certified_block_hash
  match s.compute_state certified_block_hash ctx with
  | none => (s, none)
  | some state =>
    let value : Vote_ :=
      { epoch_id := s.epoch_id
        round := ((s.block certified_block_hash).map (fun b => b.value.round)).getD 0
        certified_block_hash := certified_block_hash
        state := state
        committed_state := committed_state
        author := ctx.author }
    (s.insert_network_record ctx (.vote ⟨value, ctx.sign (ctx.hashV value)⟩), some value)

/-- `check_for_new_quorum_certificate`: the leader of a won election packages
the matching votes into a QC, closes the election, and inserts the QC. -/
def RecordStoreState.check_for_new_quorum_certificate (s : RecordStoreState)
    (ctx : SmrCtx) : RecordStoreState × Bool :=
  match s.current_election with
  | .won block_hash state =>
    match s.block block_hash with
    | none => (s, false)
    | some b =>
      if b.value.author ≠ ctx.author then (s, false)
      else
        let committed_state := s.vote_committed_state block_hash
        let authors_and_signatures := s.current_votes.filterMap
          (fun p => if p.2.value.state = state
                    then some (p.2.value.author, p.2.signature) else none)
        let value : QuorumCertificate_ :=
          { epoch_id := s.epoch_id
            round := s.current_round
            certified_block_hash := block_hash
            state := state
            votes := authors_and_signatures
            committed_state := committed_state
            author := ctx.author }
        let s1 : RecordStoreState := { s with current_election := .closed }
        (s1.insert_network_record ctx
          (.quorumCertificate ⟨value, ctx.sign (ctx.hashQ value)⟩), true)
  | _ => (s, false)

/-! ## Pacemaker (`librabft-v2/src/pacemaker.rs`) -/

structure PacemakerState where
  active_epoch : Nat
  active_round : Nat
  active_leader : Option Nat
  active_round_start_time : Int
  active_round_duration : Int
  delta : Int
  /-- `gamma: f64`, the round-growth exponent, modelled as a natural
  exponent (the default configuration uses `gamma = 2.0`); the `f64`
  products in `duration` are exact on the integer values involved. -/
  gamma : Nat
  /-- `lambda: f64`, the query-all frequency coefficient, modelled as a
  rational. -/
  lambda : ℚ
deriving DecidableEq, Repr

def PacemakerState.new (epoch_id : Nat) (node_time : Int)
    (delta : Int) (gamma : Nat) (lambda : ℚ) : PacemakerState where
  active_epoch := epoch_id
  active_round := 0
  active_leader := none
  active_round_start_time := node_time
  active_round_duration := 0
  delta := delta
  gamma := gamma
  lambda := lambda

/-- `PacemakerState::duration`. `n = round - highest_commit_certificate_round`
is a `u64` subtraction guarded by the assertion
`round > highest_commit_certificate_round` (the assertion itself is not
modelled; `Nat` subtraction truncates where the source would panic). -/
def PacemakerState.duration (pm : PacemakerState) (s : RecordStoreState)
    (round : Nat) : Int :=
  let highest_commit_certificate_round : Nat :=
    if s.highest_committed_round > 0 then s.highest_committed_round + 2 else 0
  let n : Nat := round - highest_commit_certificate_round
  pm.delta * (n : Int) ^ pm.gamma

structure PacemakerUpdateActions where
  should_propose_block : Option QuorumCertificateHash
  should_create_timeout : Option Nat
  should_send : List Nat
  should_broadcast : Bool
  should_query_all : Bool
  next_scheduled_update : Int
deriving DecidableEq, Repr

def PacemakerUpdateActions.default : PacemakerUpdateActions where
  should_propose_block := none
  should_create_timeout := none
  should_send := []
  should_broadcast := false
  should_query_all := false
  next_scheduled_update := NodeTime.never

/-- `RecordStore::proposed_block`: the block proposed by the pacemaker's
leader at the current round, if any. The two `assert_eq!` checks of the
source re-state invariants and are not modelled; the `.unwrap()` on the
block lookup is modelled as `none`. -/
def RecordStoreState.proposed_block (s : RecordStoreState) (pm : PacemakerState) :
    Option (BlockHash × Nat × Nat) :=
  if s.epoch_id ≠ pm.active_epoch ∨ s.current_round ≠ pm.active_round then none
  else
    match pm.active_leader with
    | none => none
    | some _ =>
      match s.current_proposed_block with
      | none => none
      | some hash =>
        match s.block hash with
        | none => none
        | some b => some (hash, b.value.round, b.value.author)

/-- `(self.lambda * self.active_round_duration.0 as f64) as i64`: the cast
truncates toward zero; durations are non-negative in every reachable state,
so `Rat.floor` of the non-negative product is used. -/
def PacemakerState.query_all_period (pm : PacemakerState) : Int :=
  Rat.floor (pm.lambda * (pm.active_round_duration : ℚ))

/-- `Pacemaker::update_pacemaker`. The extra `ctx` argument carries the
modelled library functions (`DefaultHasher`, RNG) used by leader election. -/
def PacemakerState.update_pacemaker (pm : PacemakerState) (ctx : SmrCtx)
    (local_author : Nat)
    (epoch_id : Nat) (s : RecordStoreState) (latest_query_all_time : Int)
    (clock : Int) : PacemakerState × PacemakerUpdateActions :=
  let actions0 := PacemakerUpdateActions.default
  let active_round :=
    max s.highest_quorum_certificate_round s.highest_timeout_certificate_round + 1
  let entered : Bool :=
    epoch_id > pm.active_epoch ∨ (epoch_id = pm.active_epoch ∧ active_round > pm.active_round)
  let pm1 : PacemakerState :=
    if entered then
      { pm with
        active_epoch := epoch_id
        active_round := active_round
        active_round_start_time := clock
        active_leader := some (leader ctx s active_round)
        active_round_duration := pm.duration s active_round }
    else pm
  let actions1 :=
    if entered ∧ pm1.active_leader ≠ some local_author then
      { actions0 with should_send := pm1.active_leader.toList }
    else actions0
  let actions2 :=
    if pm1.active_leader = some local_author ∧ s.proposed_block pm1 = none then
      { actions1 with
        should_propose_block := some s.highest_quorum_certificate_hash
        should_broadcast := true
        next_scheduled_update := clock }
    else actions1
  let actions3 :=
    if ¬ s.has_timeout local_author active_round then
      let timeout_deadline := pm1.active_round_start_time + pm1.active_round_duration
      if clock ≥ timeout_deadline then
        { actions2 with should_create_timeout := some active_round, should_broadcast := true }
      else
        { actions2 with
          next_scheduled_update := min actions2.next_scheduled_update timeout_deadline }
    else
      let period := pm1.query_all_period
      let query_all_deadline := latest_query_all_time + period
      if clock ≥ query_all_deadline then
        { actions2 with
          should_query_all := true
          next_scheduled_update := min actions2.next_scheduled_update (clock + period) }
      else
        { actions2 with
          next_scheduled_update := min actions2.next_scheduled_update query_all_deadline }
  (pm1, actions3)

/-! ## Node state (`librabft-v2/src/node.rs`) -/

structure CommitTracker where
  epoch_id : Nat
  highest_committed_round : Nat
  latest_commit_time : Int
  target_commit_interval : Int
deriving DecidableEq, Repr

def CommitTracker.new (epoch_id : Nat) (node_time : Int)
    (target_commit_interval : Int) : CommitTracker where
  epoch_id := epoch_id
  highest_committed_round := 0
  latest_commit_time := node_time
  target_commit_interval := target_commit_interval

structure CommitTrackerUpdateActions where
  next_scheduled_update : Int
  should_query_all : Bool
deriving DecidableEq, Repr

def CommitTracker.update_tracker (t : CommitTracker)
    (latest_query_all_time : Int) (clock : Int)
    (current_epoch_id : Nat) (s : RecordStoreState) :
    CommitTracker × CommitTrackerUpdateActions :=
  let t1 : CommitTracker :=
    if current_epoch_id > t.epoch_id then
      { t with
        epoch_id := current_epoch_id
        highest_committed_round := s.highest_committed_round
        latest_commit_time := clock }
    else if s.highest_committed_round > t.highest_committed_round then
      { t with
        highest_committed_round := s.highest_committed_round
        latest_commit_time := clock }
    else t
  let deadline := max t1.latest_commit_time latest_query_all_time + t1.target_commit_interval
  if clock ≥ deadline then
    (t1, { should_query_all := true, next_scheduled_update := clock + t1.target_commit_interval })
  else
    (t1, { should_query_all := false, next_scheduled_update := deadline })

structure NodeState where
  record_store : RecordStoreState
  pacemaker : PacemakerState
  epoch_id : Nat
  latest_voted_round : Nat
  locked_round : Nat
  latest_query_all_time : Int
  tracker : CommitTracker
  past_record_stores : List (Nat × RecordStoreState)
deriving DecidableEq, Repr

structure NodeUpdateActions where
  next_scheduled_update : Int
  should_send : List Nat
  should_broadcast : Bool
  should_query_all : Bool
deriving DecidableEq, Repr

/-- `NodeState::initial_hash`: the genesis QC hash of an epoch. -/
def nodeInitialHash (ctx : SmrCtx) (id : Nat) : QuorumCertificateHash :=
  QuorumCertificateHash.mk (ctx.hashE id)

/-- Node-level `insert_network_record`: records outside the current epoch are
skipped with a debug log. -/
def NodeState.insert_network_record (node : NodeState) (epoch_id : Nat)
    (record : Record) (ctx : SmrCtx) : NodeState :=
  if epoch_id = node.epoch_id then
    { node with record_store := node.record_store.insert_network_record ctx record }
  else node

def NodeState.process_pacemaker_actions (node : NodeState)
    (pacemaker_actions : PacemakerUpdateActions) (clock : Int) (ctx : SmrCtx) :
    NodeState × NodeUpdateActions :=
  let actions : NodeUpdateActions :=
    { next_scheduled_update := pacemaker_actions.next_scheduled_update
      should_broadcast := pacemaker_actions.should_broadcast
      should_query_all := pacemaker_actions.should_query_all
      should_send := pacemaker_actions.should_send }
  let node1 : NodeState :=
    match pacemaker_actions.should_create_timeout with
    | none => node
    | some round =>
      { node with
        record_store := node.record_store.create_timeout ctx.author round ctx
        -- Prevent voting at a round for which we have created a timeout already.
        latest_voted_round := max node.latest_voted_round round }
  let node2 : NodeState :=
    match pacemaker_actions.should_propose_block with
    | none => node1
    | some previous_qc_hash =>
      { node1 with
        record_store := node1.record_store.propose_block ctx previous_qc_hash clock }
  (node2, actions)

/-- The loop body of `process_commits`: deliver each committed state (the
`context.commit` callback is an external effect and is not modelled), switch
epochs when the application oracle reports a larger epoch id, and stop
delivering after an epoch change. -/
def processCommitsLoop (ctx : SmrCtx) : List (Nat × Nat) → NodeState → NodeState
  | [], node => node
  | (_, state) :: rest, node =>
    let new_epoch_id := ctx.read_epoch_id state
    if new_epoch_id > node.epoch_id then
      { node with
        record_store :=
          RecordStoreState.new (nodeInitialHash ctx new_epoch_id) state new_epoch_id
            (ctx.config_of state)
        past_record_stores :=
          alInsert node.past_record_stores node.epoch_id node.record_store
        epoch_id := new_epoch_id
        latest_voted_round := 0
        locked_round := 0 }
    else processCommitsLoop ctx rest node

def NodeState.process_commits (node : NodeState) (ctx : SmrCtx) : NodeState :=
  processCommitsLoop ctx
    (node.record_store.committed_states_after node.tracker.highest_committed_round) node

/-- Step 2 of `update_node`: vote on a valid proposal block designated by
the pacemaker, if any, under the two voting constraints. The third component
is instrumentation: the vote record created (`some v` exactly when the
source's `create_vote` returns `true`), used to state voting-safety
properties. -/
def NodeState.vote_step (node : NodeState) (ctx : SmrCtx)
    (actions1 : NodeUpdateActions) : NodeState × NodeUpdateActions × Option Vote_ :=
  match node.record_store.proposed_block node.pacemaker with
  | some (block_hash, block_round, proposer) =>
    if block_round > node.latest_voted_round ∧
        node.record_store.previous_round block_hash ≥ node.locked_round then
      let node1a : NodeState :=
        { node with
          latest_voted_round := block_round
          locked_round :=
            max node.locked_round
              (node.record_store.second_previous_round block_hash) }
      let cv := node1a.record_store.create_vote ctx block_hash
      match cv.2 with
      | some v =>
        ({ node1a with record_store := cv.1 },
         { actions1 with should_send := [proposer] }, some v)
      | none => ({ node1a with record_store := cv.1 }, actions1, none)
    else (node, actions1, none)
  | none => (node, actions1, none)

/-- Steps 5-6 of `update_node`: merge the commit-tracker actions and record
the time of the latest query-all action. -/
def NodeState.tracker_step (node4 : NodeState) (actions3 : NodeUpdateActions)
    (clock : Int) : NodeState × NodeUpdateActions :=
  let trres := node4.tracker.update_tracker node4.latest_query_all_time clock
    node4.epoch_id node4.record_store
  let node5 : NodeState := { node4 with tracker := trres.1 }
  let actions4 : NodeUpdateActions :=
    { actions3 with
      should_query_all := actions3.should_query_all || trres.2.should_query_all
      next_scheduled_update :=
        min actions3.next_scheduled_update trres.2.next_scheduled_update }
  let node6 : NodeState :=
    if actions4.should_query_all then { node5 with latest_query_all_time := clock }
    else node5
  (node6, actions4)

/-- `ConsensusNode::update_node`. -/
def NodeState.update_node (node : NodeState) (ctx : SmrCtx) (clock : Int) :
    NodeState × NodeUpdateActions × Option Vote_ :=
  let pmres := node.pacemaker.update_pacemaker ctx ctx.author node.epoch_id
    node.record_store node.latest_query_all_time clock
  let node0 : NodeState := { node with pacemaker := pmres.1 }
  let step1 := node0.process_pacemaker_actions pmres.2 clock ctx
  let node1 := step1.1
  let actions1 := step1.2
  -- Vote on a valid proposal block designated by the pacemaker, if any.
  let step2 := node1.vote_step ctx actions1
  let node2 := step2.1
  let actions2 := step2.2.1
  -- Check if our last proposal has reached a quorum of votes and create a QC.
  let qcres := node2.record_store.check_for_new_quorum_certificate ctx
  let node3 : NodeState := { node2 with record_store := qcres.1 }
  let actions3 :=
    if qcres.2 then
      { actions2 with should_broadcast := true, next_scheduled_update := clock }
    else actions2
  -- Check for new commits and verify if we should start a new epoch.
  let node4 := node3.process_commits ctx
  -- Update the commit tracker and ask that we query all nodes if needed.
  let tailres := node4.tracker_step actions3 clock
  (tailres.1, tailres.2, step2.2.2)

/-- The clock-regression check of `load_node`: given the node state already
read from storage and deserialized (I/O and `bincode` are external), resume
iff the caller-supplied clock is at least every recorded monotonic time.
`none` models the `ensure!` error. -/
def loadNodeCheck (node : NodeState) (node_time : Int) : Option NodeState :=
  let previous_time :=
    max node.latest_query_all_time
      (max node.tracker.latest_commit_time node.pacemaker.active_round_start_time)
  if node_time ≥ previous_time then some node else none

/-! ## Data synchronization (`librabft-v2/src/data_sync.rs`) -/

structure DataSyncNotification where
  current_epoch : Nat
  highest_commit_certificate : Option QuorumCertificate
  highest_quorum_certificate : Option QuorumCertificate
  timeouts : List Timeout
  current_vote : Option Vote
  proposed_block : Option Block
deriving DecidableEq, Repr

structure DataSyncRequest where
  current_epoch : Nat
  known_quorum_certificates : Finset Nat
deriving DecidableEq

def NodeState.create_request_internal (node : NodeState) : DataSyncRequest where
  current_epoch := node.epoch_id
  known_quorum_certificates := node.record_store.known_quorum_certificate_rounds

/-- `DataSyncNode::handle_notification`: inserts the offered records in
source order, accumulating `should_sync`, and returns a freshly built
request iff `should_sync` ends up true. -/
def NodeState.handle_notification (node : NodeState) (ctx : SmrCtx)
    (notification : DataSyncNotification) : NodeState × Option DataSyncRequest :=
  let sync0 : Bool := notification.current_epoch > node.epoch_id
  let step1 : NodeState × Bool :=
    match notification.highest_commit_certificate with
    | none => (node, sync0)
    | some hcc =>
      let node1 := node.insert_network_record hcc.value.epoch_id
        (.quorumCertificate hcc) ctx
      (node1,
       sync0 || (hcc.value.epoch_id > node1.epoch_id
         || (hcc.value.epoch_id = node1.epoch_id
           && hcc.value.round > node1.record_store.highest_committed_round + 2)))
  let step2 : NodeState × Bool :=
    match notification.highest_quorum_certificate with
    | none => step1
    | some hqc =>
      let node2 := step1.1.insert_network_record hqc.value.epoch_id
        (.quorumCertificate hqc) ctx
      (node2,
       step1.2 || (hqc.value.epoch_id > node2.epoch_id
         || (hqc.value.epoch_id = node2.epoch_id
           && hqc.value.round > node2.record_store.highest_quorum_certificate_round)))
  let node3 :=
    match notification.proposed_block with
    | none => step2.1
    | some block =>
      step2.1.insert_network_record notification.current_epoch (.block block) ctx
  let node4 := notification.timeouts.foldl
    (fun n timeout =>
      NodeState.insert_network_record n notification.current_epoch (.timeout timeout) ctx)
    node3
  let node5 :=
    match notification.current_vote with
    | none => node4
    | some vote =>
      node4.insert_network_record notification.current_epoch (.vote vote) ctx
  if step2.2 then (node5, some node5.create_request_internal) else (node5, none)

/-! ## Store invariants for verified insertions -/

/-- Every stored QC certifies a stored block of the same round. -/
def qcBlockOk (blocks : List (BlockHash × Block)) (qc : QuorumCertificate) : Prop :=
  (alGet blocks qc.value.certified_block_hash).map (fun b => b.value.round) =
    some qc.value.round

/-- Every stored block extends the initial hash or a stored QC of a strictly
smaller round. -/
def blockParentOk (qcs : List (QuorumCertificateHash × QuorumCertificate))
    (ih : QuorumCertificateHash) (b : Block) : Prop :=
  b.value.previous_quorum_certificate_hash = ih ∨
  Option.any (fun qc => decide (qc.value.round < b.value.round))
    (alGet qcs b.value.previous_quorum_certificate_hash) = true

def StoreInvOn (blocks : List (BlockHash × Block))
    (qcs : List (QuorumCertificateHash × QuorumCertificate))
    (ih : QuorumCertificateHash) : Prop :=
  (∀ p ∈ qcs, qcBlockOk blocks p.2) ∧ (∀ p ∈ blocks, blockParentOk qcs ih p.2)

/-- Structural invariant of a record store: it justifies the `.unwrap()`
calls of the backward quorum-certificate walk and bounds its length. -/
def StoreInv (s : RecordStoreState) : Prop :=
  StoreInvOn s.blocks s.quorum_certificates s.initial_hash

instance (s : RecordStoreState) : Decidable (StoreInv s) := by
  unfold StoreInv StoreInvOn qcBlockOk blockParentOk
  infer_instance

theorem alGet_eq_none_of_not_contains {K V : Type} [DecidableEq K]
    (l : List (K × V)) (k : K) (h : alContains l k = false) : alGet l k = none := by
  unfold alContains at h
  cases hget : alGet l k with
  | none => rfl
  | some v => rw [hget] at h; simp at h

theorem alGet_alInsert_fresh {K V : Type} [DecidableEq K]
    (l : List (K × V)) (k k' : K) (v : V) :
    alGet (alInsert l k v) k' = if k' = k then some v else alGet l k' := by
  by_cases h : k' = k
  · subst h; simp [alGet_alInsert_self]
  · simp [h, alGet_alInsert_ne l k k' v h]

/-! ## Concrete contexts and states used by witnesses and counterexamples -/

def cexStore0 : RecordStoreState :=
  RecordStoreState.new ⟨100⟩ 0 0 ⟨[(0, 1)]⟩

def cexPm0 : PacemakerState :=
  PacemakerState.new 0 0 5000 2 (1 / 2)

def cexTracker0 : CommitTracker :=
  CommitTracker.new 0 0 500

def cexNode0 : NodeState where
  record_store := cexStore0
  pacemaker := cexPm0
  epoch_id := 0
  latest_voted_round := 0
  locked_round := 0
  latest_query_all_time := 0
  tracker := cexTracker0
  past_record_stores := []

/-- A context whose signature checks always pass and whose `compute`
callback returns the state `99` for every block. -/
def cexCtx99 : SmrCtx where
  author := 0
  hashB := fun _ => 1
  hashV := fun _ => 2
  hashQ := fun _ => 50
  hashT := fun _ => 3
  hashE := fun e => e
  verify := fun _ _ _ => true
  sign := fun _ => 0
  compute := fun _ _ _ _ _ => some 99
  fetch := none
  read_epoch_id := fun _ => 0
  config_of := fun _ => ⟨[(0, 1)]⟩
  hashRound := fun r => r
  genTarget := fun _ _ => 0

/-- A store of epoch 0 holding the single block `b1` (round 1 on the initial
hash) under hash 1, with one configured author of weight 1. -/
def cexStoreB1 : RecordStoreState :=
  { cexStore0 with
    blocks :=
      [(⟨1⟩,
        ⟨{ command := 0, time := 0, previous_quorum_certificate_hash := ⟨100⟩,
           round := 1, author := 0 }, 0⟩)] }

/-- A quorum certificate for `b1` claiming state 5 (every context above
computes 99, so its execution check fails). -/
def cexQcB1 : QuorumCertificate :=
  ⟨{ epoch_id := 0, round := 1, certified_block_hash := ⟨1⟩, state := 5,
     committed_state := none, votes := [(0, 0)], author := 0 }, 0⟩

/-! ## C9 -/

/-- C9: the claim reads `Nat::previous(e) = None` for `e = 0` and
`Some(e - 1)` for `e > 0`; the source instead returns `Some(e)` unchanged in
the non-zero branch (evaluated here at the failing input `e = 1`), which the
specification itself flags as a known bug. -/
theorem claim_C9_previous_bug :
    EpochId.previous 0 = none ∧ EpochId.previous 1 = some 1 ∧
      EpochId.previous 1 ≠ some 0 := by
  decide

/-! ## C3 -/

/-- The round-duration formula exactly as the specification words it:
`duration(round) = delta * n^gamma` with
`n = round - max(highest_committed_round + 2, 0)`. -/
def PacemakerState.durationSpec (pm : PacemakerState) (s : RecordStoreState)
    (round : Nat) : Int :=
  pm.delta * ((round - max (s.highest_committed_round + 2) 0 : Nat) : Int) ^ pm.gamma

/-- C3 counterexample: with no commit yet (`highest_committed_round = 0`) the
source computes `n = round` (the guard value is 0), not
`round - max(highest_committed_round + 2, 0) = round - 2`: at round 2 with
`delta = 5000`, `gamma = 2` the code yields 20000 while the spec formula
yields 0. -/
theorem claim_C3_counterexample :
    cexPm0.duration cexStore0 2 = 20000 ∧
      cexPm0.durationSpec cexStore0 2 = 0 ∧
      cexPm0.duration cexStore0 2 ≠ cexPm0.durationSpec cexStore0 2 := by
  decide

/-- C3 (amended): for every round satisfying the source's assertion
`round > highest_commit_certificate_round`, the computed duration is
`delta * n^gamma` where `n = round - (highest_committed_round + 2)` if a
commit exists and `n = round` otherwise; in particular the first round after
a commit (`round = highest_committed_round + 3`) has duration exactly
`delta`. -/
theorem claim_C3_duration_formula (pm : PacemakerState) (s : RecordStoreState)
    (round : Nat)
    (hr : round > (if s.highest_committed_round > 0
                   then s.highest_committed_round + 2 else 0)) :
    pm.duration s round =
      pm.delta * ((round : Int) -
        (if s.highest_committed_round > 0
         then (s.highest_committed_round : Int) + 2 else 0)) ^ pm.gamma ∧
      (s.highest_committed_round > 0 →
        pm.duration s (s.highest_committed_round + 3) = pm.delta) := by
  have e1 : ∀ r : Nat, pm.duration s r =
      pm.delta * (((r - (if s.highest_committed_round > 0
        then s.highest_committed_round + 2 else 0)) : Nat) : Int) ^ pm.gamma :=
    fun _ => rfl
  constructor
  · rw [e1]
    by_cases hc : s.highest_committed_round > 0
    · rw [if_pos hc] at hr ⊢
      rw [if_pos hc]
      have hcast : (((round - (s.highest_committed_round + 2)) : Nat) : Int) =
          (round : Int) - ((s.highest_committed_round : Int) + 2) := by
        omega
      rw [hcast]
    · rw [if_neg hc] at hr ⊢
      rw [if_neg hc]
      norm_num
  · intro hc
    rw [e1]
    rw [if_pos hc]
    have hone : ((s.highest_committed_round + 3 - (s.highest_committed_round + 2)) : Nat)
        = 1 := by omega
    rw [hone]
    norm_num

def cexStoreHcr3 : RecordStoreState := { cexStore0 with highest_committed_round := 3 }

/-- C3 witness: the amended formula applied at a concrete store with
`highest_committed_round = 3` (assertion hypothesis discharged at round 7);
the first round after the commit, round 6, lasts exactly `delta`. -/
theorem claim_C3_witness :
    (7 > (if cexStoreHcr3.highest_committed_round > 0
          then cexStoreHcr3.highest_committed_round + 2 else 0)) ∧
      cexPm0.duration cexStoreHcr3 6 = cexPm0.delta := by
  have hyp : (7 > (if cexStoreHcr3.highest_committed_round > 0
      then cexStoreHcr3.highest_committed_round + 2 else 0)) := by decide
  exact ⟨hyp, (claim_C3_duration_formula cexPm0 cexStoreHcr3 7 hyp).2 (by decide)⟩

/-! ## C8 -/

/-- C8: given a successfully deserialized node state, `load_node` refuses to
resume exactly when the caller-supplied clock is strictly below the maximum
of `latest_query_all_time`, `tracker.latest_commit_time` and
`pacemaker.active_round_start_time`, and on success returns the state
unchanged. -/
theorem claim_C8_load_node (node : NodeState) (clock : Int) :
    (loadNodeCheck node clock = none ↔
      clock < max node.latest_query_all_time
        (max node.tracker.latest_commit_time node.pacemaker.active_round_start_time)) ∧
      (∀ n', loadNodeCheck node clock = some n' → n' = node) := by
  have hdef : loadNodeCheck node clock =
      if clock ≥ max node.latest_query_all_time
        (max node.tracker.latest_commit_time node.pacemaker.active_round_start_time)
      then some node else none := rfl
  by_cases h : clock ≥ max node.latest_query_all_time
      (max node.tracker.latest_commit_time node.pacemaker.active_round_start_time)
  · rw [hdef, if_pos h]
    refine ⟨⟨fun hx => absurd hx (by simp), fun hx => absurd hx (by omega)⟩, ?_⟩
    intro n' h'
    exact (Option.some_inj.mp h').symm
  · rw [hdef, if_neg h]
    refine ⟨⟨fun _ => by omega, fun _ => rfl⟩, ?_⟩
    intro n' h'
    exact absurd h' (by simp)

/-- C8 witness: at clock `-1` (before all recorded times 0) the load is
refused; at clock 5 it returns the state unchanged. -/
theorem claim_C8_witness :
    loadNodeCheck cexNode0 (-1) = none ∧ loadNodeCheck cexNode0 5 = some cexNode0 := by
  constructor
  · exact (claim_C8_load_node cexNode0 (-1)).1.mpr (by decide)
  · cases h : loadNodeCheck cexNode0 5 with
    | none =>
      have := (claim_C8_load_node cexNode0 5).1.mp h
      exact absurd this (by decide)
    | some n' =>
      have := (claim_C8_load_node cexNode0 5).2 n' h
      rw [this]

/-! ## C2 -/

/-- The store with just a QC added to `quorum_certificates` (the state a QC
failing the execution check is left in). -/
def RecordStoreState.withQcInserted (s : RecordStoreState) (hash : Nat)
    (qc : QuorumCertificate) : RecordStoreState :=
  { s with quorum_certificates := alInsert s.quorum_certificates ⟨hash⟩ qc }

/-- C2 (amended): a record failing `verify_network_record` leaves the store
completely unchanged; but a QuorumCertificate that passes verification and
then fails the execution-state check (`compute_state` returns `none` or a
state different from the QC's) is *not* dropped cleanly: it remains inserted
in `quorum_certificates`, with every other field of the store unchanged. -/
theorem claim_C2_failed_records (s : RecordStoreState) (ctx : SmrCtx) :
    (∀ r : Record, s.verify_network_record ctx r = none →
      s.insert_network_record ctx r = s) ∧
    (∀ (qc : QuorumCertificate) (hash : Nat),
      s.verify_network_record ctx (.quorumCertificate qc) = some hash →
      (∀ st, (s.withQcInserted hash qc).compute_state
          qc.value.certified_block_hash ctx = some st → st ≠ qc.value.state) →
      s.insert_network_record ctx (.quorumCertificate qc) =
        s.withQcInserted hash qc) := by
  constructor
  · intro r hv
    unfold RecordStoreState.insert_network_record RecordStoreState.try_insert_network_record
    rw [hv]
  · intro qc hash hv hfail
    unfold RecordStoreState.insert_network_record RecordStoreState.try_insert_network_record
    rw [hv]
    simp only
    cases hcs : (s.withQcInserted hash qc).compute_state
        qc.value.certified_block_hash ctx with
    | none =>
      unfold RecordStoreState.withQcInserted at hcs ⊢
      simp [hcs]
    | some st =>
      have hne := hfail st hcs
      unfold RecordStoreState.withQcInserted at hcs ⊢
      simp [hcs, hne]

/-- C2 counterexample: `cexQcB1` passes `verify_network_record` on
`cexStoreB1` under `cexCtx99`, its execution check fails (the context
computes 99, the QC claims 5), and yet the store is modified (the claim
asserts it is dropped with the store completely unchanged). -/
theorem claim_C2_counterexample :
    (cexStoreB1.verify_network_record cexCtx99 (.quorumCertificate cexQcB1)).isSome
        = true ∧
      cexStoreB1.compute_state cexQcB1.value.certified_block_hash cexCtx99 = some 99 ∧
      cexQcB1.value.state = 5 ∧
      cexStoreB1.insert_network_record cexCtx99 (.quorumCertificate cexQcB1)
        ≠ cexStoreB1 := by
  refine ⟨by decide, by decide, by decide, ?_⟩
  intro h
  have : alGet (cexStoreB1.insert_network_record cexCtx99
      (.quorumCertificate cexQcB1)).quorum_certificates ⟨50⟩ =
      alGet cexStoreB1.quorum_certificates ⟨50⟩ := by rw [h]
  revert this
  decide

/-- C2 witness: a vote whose author has not produced the certified block
fails verification (unknown certified block hash) and the store is
unchanged; and the failed-execution QC above lands in
`quorum_certificates`. -/
theorem claim_C2_witness :
    cexStore0.insert_network_record cexCtx99
        (.vote ⟨{ epoch_id := 0, round := 1, certified_block_hash := ⟨7⟩, state := 0,
                  committed_state := none, author := 0 }, 0⟩) = cexStore0 ∧
      alGet (cexStoreB1.insert_network_record cexCtx99
        (.quorumCertificate cexQcB1)).quorum_certificates ⟨50⟩ = some cexQcB1 := by
  constructor
  · exact (claim_C2_failed_records cexStore0 cexCtx99).1 _ (by decide)
  · have h := (claim_C2_failed_records cexStoreB1 cexCtx99).2 cexQcB1 50 (by decide)
      (by decide)
    rw [h]
    exact alGet_alInsert_self _ _ _

/-! ## C4: round advance -/

theorem ucr_current_round (s : RecordStoreState) (r : Nat) :
    (s.update_current_round r).current_round = max s.current_round r := by
  unfold RecordStoreState.update_current_round
  split
  · omega
  · simp only
    omega

theorem ucr_increase_resets (s : RecordStoreState) (r : Nat)
    (h : s.current_round < (s.update_current_round r).current_round) :
    (s.update_current_round r).current_proposed_block = none ∧
      (s.update_current_round r).current_votes = [] ∧
      (s.update_current_round r).current_timeouts = [] ∧
      (s.update_current_round r).current_timeouts_weight = 0 ∧
      (s.update_current_round r).current_election = .ongoing [] := by
  unfold RecordStoreState.update_current_round at h ⊢
  split at h
  · omega
  · split
    · omega
    · exact ⟨rfl, rfl, rfl, rfl, rfl⟩

theorem ucr_preserved (s : RecordStoreState) (r : Nat) :
    (s.update_current_round r).blocks = s.blocks ∧
      (s.update_current_round r).quorum_certificates = s.quorum_certificates ∧
      (s.update_current_round r).initial_hash = s.initial_hash ∧
      (s.update_current_round r).epoch_id = s.epoch_id ∧
      (s.update_current_round r).highest_quorum_certificate_round =
        s.highest_quorum_certificate_round ∧
      (s.update_current_round r).highest_timeout_certificate_round =
        s.highest_timeout_certificate_round := by
  unfold RecordStoreState.update_current_round
  split
  · exact ⟨rfl, rfl, rfl, rfl, rfl, rfl⟩
  · exact ⟨rfl, rfl, rfl, rfl, rfl, rfl⟩

theorem u3c_current_round (s : RecordStoreState) (h : QuorumCertificateHash) :
    (s.update_commit_3chain_round h).current_round = s.current_round ∧
      (s.update_commit_3chain_round h).current_proposed_block =
        s.current_proposed_block ∧
      (s.update_commit_3chain_round h).current_votes = s.current_votes ∧
      (s.update_commit_3chain_round h).current_timeouts = s.current_timeouts ∧
      (s.update_commit_3chain_round h).current_timeouts_weight =
        s.current_timeouts_weight ∧
      (s.update_commit_3chain_round h).current_election = s.current_election ∧
      (s.update_commit_3chain_round h).highest_timeout_certificate_round =
        s.highest_timeout_certificate_round := by
  unfold RecordStoreState.update_commit_3chain_round
  dsimp only
  split
  · split
    · exact ⟨rfl, rfl, rfl, rfl, rfl, rfl, rfl⟩
    · exact ⟨rfl, rfl, rfl, rfl, rfl, rfl, rfl⟩
  · exact ⟨rfl, rfl, rfl, rfl, rfl, rfl, rfl⟩

theorem u3c_round (s : RecordStoreState) (h : QuorumCertificateHash) :
    (s.update_commit_3chain_round h).current_round = s.current_round :=
  (u3c_current_round s h).1

theorem insert_round_mono (s : RecordStoreState) (ctx : SmrCtx) (r : Record) :
    s.current_round ≤ (s.insert_network_record ctx r).current_round := by
  unfold RecordStoreState.insert_network_record RecordStoreState.try_insert_network_record
  cases hv : s.verify_network_record ctx r with
  | none => exact Nat.le_refl _
  | some hash =>
    cases r with
    | block b =>
      dsimp only
      split
      · exact Nat.le_refl _
      · exact Nat.le_refl _
    | vote v =>
      dsimp only
      split
      · split
        · exact Nat.le_refl _
        · exact Nat.le_refl _
      · exact Nat.le_refl _
    | quorumCertificate qc =>
      dsimp only
      split
      · split
        · rw [u3c_round, ucr_current_round]
          split
          · exact Nat.le_max_left _ _
          · exact Nat.le_max_left _ _
        · exact Nat.le_refl _
      · exact Nat.le_refl _
    | timeout t =>
      dsimp only
      split
      · rw [ucr_current_round]
        exact Nat.le_max_left _ _
      · exact Nat.le_refl _

theorem u3c_cpb (s : RecordStoreState) (h : QuorumCertificateHash) :
    (s.update_commit_3chain_round h).current_proposed_block =
      s.current_proposed_block :=
  (u3c_current_round s h).2.1

theorem u3c_votes (s : RecordStoreState) (h : QuorumCertificateHash) :
    (s.update_commit_3chain_round h).current_votes = s.current_votes :=
  (u3c_current_round s h).2.2.1

theorem u3c_timeouts (s : RecordStoreState) (h : QuorumCertificateHash) :
    (s.update_commit_3chain_round h).current_timeouts = s.current_timeouts :=
  (u3c_current_round s h).2.2.2.1

theorem u3c_weight (s : RecordStoreState) (h : QuorumCertificateHash) :
    (s.update_commit_3chain_round h).current_timeouts_weight =
      s.current_timeouts_weight :=
  (u3c_current_round s h).2.2.2.2.1

theorem u3c_election (s : RecordStoreState) (h : QuorumCertificateHash) :
    (s.update_commit_3chain_round h).current_election = s.current_election :=
  (u3c_current_round s h).2.2.2.2.2.1

theorem insert_qc_round (s : RecordStoreState) (ctx : SmrCtx) (qc : QuorumCertificate)
    (hok : (s.try_insert_network_record ctx (.quorumCertificate qc)).2 = true) :
    (s.insert_network_record ctx (.quorumCertificate qc)).current_round =
      max s.current_round (qc.value.round + 1) := by
  unfold RecordStoreState.insert_network_record
  unfold RecordStoreState.try_insert_network_record at hok ⊢
  cases hv : s.verify_network_record ctx (.quorumCertificate qc) with
  | none => rw [hv] at hok; exact absurd hok (by simp)
  | some hash =>
    rw [hv] at hok
    dsimp only at hok ⊢
    split
    · rename_i st hcs
      rw [hcs] at hok
      dsimp only at hok
      split at hok
      · rename_i hst
        rw [if_pos hst]
        dsimp only
        rw [u3c_round, ucr_current_round]
        congr 1
        split
        · rfl
        · rfl
      · exact absurd hok (by simp)
    · rename_i hcs
      rw [hcs] at hok
      exact absurd hok (by simp)

theorem insert_timeout_tc (s : RecordStoreState) (ctx : SmrCtx) (t : Timeout)
    (hok : (s.try_insert_network_record ctx (.timeout t)).2 = true)
    (hw : s.configuration.quorum_threshold ≤
      s.current_timeouts_weight + s.configuration.weight t.value.author) :
    (s.insert_network_record ctx (.timeout t)).highest_timeout_certificate_round =
        s.current_round ∧
      (s.insert_network_record ctx (.timeout t)).current_round = s.current_round + 1 := by
  unfold RecordStoreState.insert_network_record
  unfold RecordStoreState.try_insert_network_record at hok ⊢
  cases hv : s.verify_network_record ctx (.timeout t) with
  | none => rw [hv] at hok; exact absurd hok (by simp)
  | some hash =>
    dsimp only
    rw [if_pos hw]
    refine ⟨?_, ?_⟩
    · rw [(ucr_preserved _ _).2.2.2.2.2]
    · rw [ucr_current_round]
      have : ∀ a : Nat, max a (a + 1) = a + 1 := fun a => by omega
      exact this _

/-- Helper for the reset behaviour of a successful QC insertion. -/
theorem qc_tail_resets (s s2 : RecordStoreState) (ρ : Nat)
    (hh : QuorumCertificateHash)
    (hs2 : s2.current_round = s.current_round)
    (h : s.current_round <
      ((s2.update_current_round ρ).update_commit_3chain_round hh).current_round) :
    ((s2.update_current_round ρ).update_commit_3chain_round hh).current_proposed_block
        = none ∧
      ((s2.update_current_round ρ).update_commit_3chain_round hh).current_votes = [] ∧
      ((s2.update_current_round ρ).update_commit_3chain_round hh).current_timeouts
        = [] ∧
      ((s2.update_current_round ρ).update_commit_3chain_round hh).current_timeouts_weight
        = 0 ∧
      ((s2.update_current_round ρ).update_commit_3chain_round hh).current_election
        = .ongoing [] := by
  rw [u3c_round] at h
  rw [← hs2] at h
  have hres := ucr_increase_resets s2 ρ h
  rw [u3c_cpb, u3c_votes, u3c_timeouts, u3c_weight, u3c_election]
  exact hres

theorem insert_increase_resets (s : RecordStoreState) (ctx : SmrCtx) (r : Record)
    (h : s.current_round < (s.insert_network_record ctx r).current_round) :
    (s.insert_network_record ctx r).current_proposed_block = none ∧
      (s.insert_network_record ctx r).current_votes = [] ∧
      (s.insert_network_record ctx r).current_timeouts = [] ∧
      (s.insert_network_record ctx r).current_timeouts_weight = 0 ∧
      (s.insert_network_record ctx r).current_election = .ongoing [] := by
  unfold RecordStoreState.insert_network_record RecordStoreState.try_insert_network_record
      at h ⊢
  cases hv : s.verify_network_record ctx r with
  | none =>
    rw [hv] at h
    dsimp only at h
    exact absurd h (by omega)
  | some hash =>
    rw [hv] at h
    cases r with
    | block b =>
      dsimp only at h
      split at h
      · dsimp only at h
        exact absurd h (by omega)
      · exact absurd h (by omega)
    | vote v =>
      dsimp only at h
      split at h
      · split at h
        · dsimp only at h; exact absurd h (by omega)
        · dsimp only at h; exact absurd h (by omega)
      · dsimp only at h; exact absurd h (by omega)
    | quorumCertificate qc =>
      dsimp only at h ⊢
      split
      · rename_i st hcs
        rw [hcs] at h
        dsimp only at h
        split at h
        · rename_i hst
          rw [if_pos hst]
          dsimp only
          exact qc_tail_resets s _ _ _ (by split <;> rfl) h
        · dsimp only at h; exact absurd h (by omega)
      · rename_i hcs
        rw [hcs] at h
        dsimp only at h; exact absurd h (by omega)
    | timeout t =>
      dsimp only at h ⊢
      split at h
      · rename_i hwt
        rw [if_pos hwt]
        exact ucr_increase_resets _ _ h
      · dsimp only at h; exact absurd h (by omega)

theorem create_timeout_round_mono (s : RecordStoreState) (a ρ : Nat) (ctx : SmrCtx) :
    s.current_round ≤ (s.create_timeout a ρ ctx).current_round := by
  unfold RecordStoreState.create_timeout
  exact insert_round_mono _ _ _

theorem propose_block_round_mono (s : RecordStoreState) (ctx : SmrCtx)
    (h : QuorumCertificateHash) (time : Int) :
    s.current_round ≤ (s.propose_block ctx h time).current_round := by
  unfold RecordStoreState.propose_block
  cases ctx.fetch with
  | none => exact Nat.le_refl _
  | some c => exact insert_round_mono _ _ _

theorem create_vote_round_mono (s : RecordStoreState) (ctx : SmrCtx) (bh : BlockHash) :
    s.current_round ≤ ((s.create_vote ctx bh).1).current_round := by
  unfold RecordStoreState.create_vote
  cases s.compute_state bh ctx with
  | none => exact Nat.le_refl _
  | some st => exact insert_round_mono _ _ _

theorem check_qc_round_mono (s : RecordStoreState) (ctx : SmrCtx) :
    s.current_round ≤ ((s.check_for_new_quorum_certificate ctx).1).current_round := by
  unfold RecordStoreState.check_for_new_quorum_certificate
  cases s.current_election with
  | ongoing ballot => exact Nat.le_refl _
  | closed => exact Nat.le_refl _
  | won bh st =>
    dsimp only
    cases s.block bh with
    | none => exact Nat.le_refl _
    | some b =>
      dsimp only
      split
      · exact Nat.le_refl _
      · exact insert_round_mono { s with current_election := ElectionState.closed } ctx _

/-- C4: `current_round` never decreases across any record-store operation;
a successfully inserted QC at round `r` sets it to `max(current_round, r+1)`;
a successfully inserted timeout whose weight reaches the quorum threshold
records `highest_timeout_certificate_round = current_round` and advances the
round by one; and every increase of `current_round` resets the per-round
structures (proposed block, votes, timeouts, timeout weight, election). -/
theorem claim_C4_round_advance (s : RecordStoreState) (ctx : SmrCtx) :
    (∀ r : Record, s.current_round ≤ (s.insert_network_record ctx r).current_round) ∧
    (∀ qc : QuorumCertificate,
      (s.try_insert_network_record ctx (.quorumCertificate qc)).2 = true →
      (s.insert_network_record ctx (.quorumCertificate qc)).current_round =
        max s.current_round (qc.value.round + 1)) ∧
    (∀ t : Timeout,
      (s.try_insert_network_record ctx (.timeout t)).2 = true →
      s.configuration.quorum_threshold ≤
        s.current_timeouts_weight + s.configuration.weight t.value.author →
      (s.insert_network_record ctx (.timeout t)).highest_timeout_certificate_round =
          s.current_round ∧
        (s.insert_network_record ctx (.timeout t)).current_round =
          s.current_round + 1) ∧
    (∀ r : Record, s.current_round < (s.insert_network_record ctx r).current_round →
      (s.insert_network_record ctx r).current_proposed_block = none ∧
        (s.insert_network_record ctx r).current_votes = [] ∧
        (s.insert_network_record ctx r).current_timeouts = [] ∧
        (s.insert_network_record ctx r).current_timeouts_weight = 0 ∧
        (s.insert_network_record ctx r).current_election = .ongoing []) ∧
    (∀ a ρ, s.current_round ≤ (s.create_timeout a ρ ctx).current_round) ∧
    (∀ h time, s.current_round ≤ (s.propose_block ctx h time).current_round) ∧
    (∀ bh, s.current_round ≤ ((s.create_vote ctx bh).1).current_round) ∧
    s.current_round ≤ ((s.check_for_new_quorum_certificate ctx).1).current_round :=
  ⟨fun r => insert_round_mono s ctx r,
   fun qc hok => insert_qc_round s ctx qc hok,
   fun t hok hw => insert_timeout_tc s ctx t hok hw,
   fun r h => insert_increase_resets s ctx r h,
   fun a ρ => create_timeout_round_mono s a ρ ctx,
   fun h time => propose_block_round_mono s ctx h time,
   fun bh => create_vote_round_mono s ctx bh,
   check_qc_round_mono s ctx⟩

/-- Same as `cexCtx99` but computing the state 5, matching `cexQcB1`, so that
its insertion fully succeeds. -/
def cexCtx5 : SmrCtx := { cexCtx99 with compute := fun _ _ _ _ _ => some 5 }

def cexT0 : Timeout :=
  ⟨{ epoch_id := 0, round := 1, highest_certified_block_round := 0, author := 0 }, 0⟩

/-- C4 witness: a successful QC insertion at round 1 advances `current_round`
from 1 to `max 1 2 = 2`; a timeout of weight 1 meets the quorum threshold 1,
records `highest_timeout_certificate_round = 1`, advances the round to 2 and
resets the election. -/
theorem claim_C4_witness :
    (cexStoreB1.try_insert_network_record cexCtx5 (.quorumCertificate cexQcB1)).2
        = true ∧
      (cexStoreB1.insert_network_record cexCtx5 (.quorumCertificate cexQcB1)).current_round
        = 2 ∧
      (cexStore0.insert_network_record cexCtx99 (.timeout cexT0)).highest_timeout_certificate_round
        = 1 ∧
      (cexStore0.insert_network_record cexCtx99 (.timeout cexT0)).current_round = 2 ∧
      (cexStore0.insert_network_record cexCtx99 (.timeout cexT0)).current_election
        = .ongoing [] := by
  have h1 := claim_C4_round_advance cexStoreB1 cexCtx5
  have h2 := claim_C4_round_advance cexStore0 cexCtx99
  refine ⟨by decide, ?_, ?_, ?_, ?_⟩
  · rw [h1.2.1 cexQcB1 (by decide)]
    decide
  · exact (h2.2.2.1 cexT0 (by decide) (by decide)).1
  · exact (h2.2.2.1 cexT0 (by decide) (by decide)).2
  · exact (h2.2.2.2.1 (.timeout cexT0) (by decide)).2.2.2.2

/-! ## C5: idempotence of insertion -/

theorem qc_chain_congr (s s' : RecordStoreState) (hb : s'.blocks = s.blocks)
    (hq : s'.quorum_certificates = s.quorum_certificates)
    (hi : s'.initial_hash = s.initial_hash) :
    ∀ (fuel : Nat) (h : QuorumCertificateHash),
      qc_chain s' h fuel = qc_chain s h fuel := by
  intro fuel
  induction fuel with
  | zero => intro h; rfl
  | succ n ih =>
    intro h
    show (if h = s'.initial_hash then []
      else match s'.quorum_certificate h with
        | none => []
        | some qc =>
          match s'.block qc.value.certified_block_hash with
          | none => []
          | some b => qc :: qc_chain s' b.value.previous_quorum_certificate_hash n) = _
    unfold RecordStoreState.quorum_certificate RecordStoreState.block
    rw [hi, hq, hb]
    show _ = (if h = s.initial_hash then []
      else match alGet s.quorum_certificates h with
        | none => []
        | some qc =>
          match alGet s.blocks qc.value.certified_block_hash with
          | none => []
          | some b => qc :: qc_chain s b.value.previous_quorum_certificate_hash n)
    split
    · rfl
    · cases alGet s.quorum_certificates h with
      | none => rfl
      | some qc =>
        dsimp only
        cases alGet s.blocks qc.value.certified_block_hash with
        | none => rfl
        | some b =>
          dsimp only
          rw [ih]

theorem vote_committed_state_congr (s s' : RecordStoreState)
    (hb : s'.blocks = s.blocks) (hq : s'.quorum_certificates = s.quorum_certificates)
    (hi : s'.initial_hash = s.initial_hash) (bh : BlockHash) :
    s'.vote_committed_state bh = s.vote_committed_state bh := by
  unfold RecordStoreState.vote_committed_state
  unfold RecordStoreState.block
  rw [hb]
  simp only [qc_chain_congr s s' hb hq hi]

theorem verify_block_inv (s : RecordStoreState) (ctx : SmrCtx) (b : Block) (h : Nat)
    (hv : s.verify_network_record ctx (.block b) = some h) :
    h = ctx.hashB b.value ∧ alContains s.blocks ⟨ctx.hashB b.value⟩ = false := by
  unfold RecordStoreState.verify_network_record at hv
  dsimp only at hv
  split at hv
  · simp at hv
  · rename_i hcon
    split at hv
    · simp at hv
    · split at hv
      · split at hv
        · exact ⟨(Option.some_inj.mp hv).symm, by simpa using hcon⟩
        · simp at hv
      · split at hv
        · simp at hv
        · split at hv
          · simp at hv
          · split at hv
            · exact ⟨(Option.some_inj.mp hv).symm, by simpa using hcon⟩
            · simp at hv

theorem verify_vote_inv (s : RecordStoreState) (ctx : SmrCtx) (v : Vote) (h : Nat)
    (hv : s.verify_network_record ctx (.vote v) = some h) :
    v.value.epoch_id = s.epoch_id ∧
      (∃ b, s.block v.value.certified_block_hash = some b ∧
        b.value.round = v.value.round) ∧
      s.vote_committed_state v.value.certified_block_hash = v.value.committed_state ∧
      v.value.round = s.current_round ∧
      alContains s.current_votes v.value.author = false := by
  unfold RecordStoreState.verify_network_record at hv
  dsimp only at hv
  split at hv
  · simp at hv
  · rename_i hep
    split at hv
    · simp at hv
    · rename_i b hb
      split at hv
      · simp at hv
      · rename_i hround
        split at hv
        · simp at hv
        · rename_i hvcs
          split at hv
          · simp at hv
          · rename_i hcr
            split at hv
            · simp at hv
            · rename_i hcon
              refine ⟨by omega, ⟨b, hb, by omega⟩, by
                  simpa using hvcs, by omega, by simpa using hcon⟩

theorem verify_qc_inv (s : RecordStoreState) (ctx : SmrCtx) (qc : QuorumCertificate)
    (h : Nat) (hv : s.verify_network_record ctx (.quorumCertificate qc) = some h) :
    h = ctx.hashQ qc.value ∧ qc.value.epoch_id = s.epoch_id ∧
      alContains s.quorum_certificates ⟨ctx.hashQ qc.value⟩ = false ∧
      (∃ b, s.block qc.value.certified_block_hash = some b ∧
        b.value.round = qc.value.round) := by
  unfold RecordStoreState.verify_network_record at hv
  dsimp only at hv
  split at hv
  · simp at hv
  · rename_i hep
    split at hv
    · simp at hv
    · rename_i hcon
      split at hv
      · simp at hv
      · rename_i b hb
        split at hv
        · simp at hv
        · rename_i hround
          split at hv
          · simp at hv
          · split at hv
            · simp at hv
            · split at hv
              · simp at hv
              · split at hv
                · simp at hv
                · split at hv
                  · exact ⟨(Option.some_inj.mp hv).symm, by omega,
                      by simpa using hcon, ⟨b, hb, by omega⟩⟩
                  · simp at hv

theorem verify_timeout_inv (s : RecordStoreState) (ctx : SmrCtx) (t : Timeout)
    (h : Nat) (hv : s.verify_network_record ctx (.timeout t) = some h) :
    t.value.epoch_id = s.epoch_id ∧
      t.value.highest_certified_block_round ≤ s.highest_quorum_certificate_round ∧
      t.value.round = s.current_round ∧
      alContains s.current_timeouts t.value.author = false := by
  unfold RecordStoreState.verify_network_record at hv
  dsimp only at hv
  split at hv
  · simp at hv
  · rename_i hep
    split at hv
    · simp at hv
    · rename_i hhc
      split at hv
      · simp at hv
      · rename_i hcr
        split at hv
        · simp at hv
        · rename_i hcon
          split at hv
          · exact ⟨by omega, by omega, by omega, by simpa using hcon⟩
          · simp at hv

theorem insert_of_verify_none (s : RecordStoreState) (ctx : SmrCtx) (r : Record)
    (hv : s.verify_network_record ctx r = none) :
    s.insert_network_record ctx r = s := by
  unfold RecordStoreState.insert_network_record RecordStoreState.try_insert_network_record
  rw [hv]

theorem u3c_store_fields (s : RecordStoreState) (h : QuorumCertificateHash) :
    (s.update_commit_3chain_round h).blocks = s.blocks ∧
      (s.update_commit_3chain_round h).quorum_certificates = s.quorum_certificates ∧
      (s.update_commit_3chain_round h).epoch_id = s.epoch_id ∧
      (s.update_commit_3chain_round h).initial_hash = s.initial_hash := by
  unfold RecordStoreState.update_commit_3chain_round
  dsimp only
  split
  · split
    · exact ⟨rfl, rfl, rfl, rfl⟩
    · exact ⟨rfl, rfl, rfl, rfl⟩
  · exact ⟨rfl, rfl, rfl, rfl⟩

theorem insert_block_blocks (s : RecordStoreState) (ctx : SmrCtx) (b : Block)
    (h : Nat) (hv : s.verify_network_record ctx (.block b) = some h) :
    (s.insert_network_record ctx (.block b)).blocks =
      alInsert s.blocks ⟨ctx.hashB b.value⟩ b := by
  obtain ⟨hh, _⟩ := verify_block_inv s ctx b h hv
  subst hh
  unfold RecordStoreState.insert_network_record RecordStoreState.try_insert_network_record
  rw [hv]
  dsimp only
  split
  · rfl
  · rfl

theorem insert_vote_fields (s : RecordStoreState) (ctx : SmrCtx) (v : Vote)
    (h : Nat) (hv : s.verify_network_record ctx (.vote v) = some h) :
    (s.insert_network_record ctx (.vote v)).blocks = s.blocks ∧
      (s.insert_network_record ctx (.vote v)).quorum_certificates =
        s.quorum_certificates ∧
      (s.insert_network_record ctx (.vote v)).initial_hash = s.initial_hash ∧
      (s.insert_network_record ctx (.vote v)).epoch_id = s.epoch_id ∧
      (s.insert_network_record ctx (.vote v)).current_round = s.current_round ∧
      (s.insert_network_record ctx (.vote v)).current_votes =
        alInsert s.current_votes v.value.author v := by
  unfold RecordStoreState.insert_network_record RecordStoreState.try_insert_network_record
  rw [hv]
  dsimp only
  split
  · split
    · exact ⟨rfl, rfl, rfl, rfl, rfl, rfl⟩
    · exact ⟨rfl, rfl, rfl, rfl, rfl, rfl⟩
  · exact ⟨rfl, rfl, rfl, rfl, rfl, rfl⟩

theorem insert_qc_fields (s : RecordStoreState) (ctx : SmrCtx)
    (qc : QuorumCertificate) (h : Nat)
    (hv : s.verify_network_record ctx (.quorumCertificate qc) = some h) :
    (s.insert_network_record ctx (.quorumCertificate qc)).epoch_id = s.epoch_id ∧
      alContains (s.insert_network_record ctx (.quorumCertificate qc)).quorum_certificates
        ⟨ctx.hashQ qc.value⟩ = true := by
  obtain ⟨hh, _, _, _⟩ := verify_qc_inv s ctx qc h hv
  subst hh
  unfold RecordStoreState.insert_network_record RecordStoreState.try_insert_network_record
  rw [hv]
  dsimp only
  split
  · rename_i st hcs
    split
    · rename_i hst
      constructor
      · rw [(u3c_store_fields _ _).2.2.1, (ucr_preserved _ _).2.2.2.1]
        split
        · rfl
        · rfl
      · rw [(u3c_store_fields _ _).2.1, (ucr_preserved _ _).2.1]
        split
        · exact alContains_alInsert_self _ _ _
        · exact alContains_alInsert_self _ _ _
    · exact ⟨rfl, alContains_alInsert_self _ _ _⟩
  · exact ⟨rfl, alContains_alInsert_self _ _ _⟩

theorem insert_timeout_fields (s : RecordStoreState) (ctx : SmrCtx) (t : Timeout)
    (h : Nat) (hv : s.verify_network_record ctx (.timeout t) = some h) :
    (s.insert_network_record ctx (.timeout t)).epoch_id = s.epoch_id ∧
      (s.insert_network_record ctx (.timeout t)).highest_quorum_certificate_round =
        s.highest_quorum_certificate_round ∧
      ((s.insert_network_record ctx (.timeout t)).current_round = s.current_round ∧
        (s.insert_network_record ctx (.timeout t)).current_timeouts =
          alInsert s.current_timeouts t.value.author t ∨
       (s.insert_network_record ctx (.timeout t)).current_round =
          s.current_round + 1) := by
  unfold RecordStoreState.insert_network_record RecordStoreState.try_insert_network_record
  rw [hv]
  dsimp only
  split
  · refine ⟨?_, ?_, Or.inr ?_⟩
    · rw [(ucr_preserved _ _).2.2.2.1]
    · rw [(ucr_preserved _ _).2.2.2.2.1]
    · rw [ucr_current_round]
      have : ∀ a : Nat, max a (a + 1) = a + 1 := fun a => by omega
      exact this _
  · exact ⟨rfl, rfl, Or.inl ⟨rfl, rfl⟩⟩

theorem second_verify_block (s : RecordStoreState) (ctx : SmrCtx) (b : Block)
    (h : Nat) (hv : s.verify_network_record ctx (.block b) = some h) :
    (s.insert_network_record ctx (.block b)).verify_network_record ctx (.block b)
      = none := by
  have hb := insert_block_blocks s ctx b h hv
  unfold RecordStoreState.verify_network_record
  dsimp only
  rw [hb]
  simp [alContains_alInsert_self]

theorem second_verify_vote (s : RecordStoreState) (ctx : SmrCtx) (v : Vote)
    (h : Nat) (hv : s.verify_network_record ctx (.vote v) = some h) :
    (s.insert_network_record ctx (.vote v)).verify_network_record ctx (.vote v)
      = none := by
  obtain ⟨hep, ⟨b, hb, hbr⟩, hvcs, hcr, hcon⟩ := verify_vote_inv s ctx v h hv
  obtain ⟨f1, f2, f3, f4, f5, f6⟩ := insert_vote_fields s ctx v h hv
  have hblock : ∀ x, (s.insert_network_record ctx (.vote v)).block x = s.block x := by
    intro x
    unfold RecordStoreState.block
    rw [f1]
  have hvcs' : (s.insert_network_record ctx (.vote v)).vote_committed_state
      v.value.certified_block_hash = v.value.committed_state := by
    rw [vote_committed_state_congr s _ f1 f2 f3]
    exact hvcs
  unfold RecordStoreState.verify_network_record
  dsimp only
  rw [f4, f5, f6]
  simp [hblock, hb, hep, hbr, hvcs', hcr, alContains_alInsert_self]

theorem second_verify_qc (s : RecordStoreState) (ctx : SmrCtx)
    (qc : QuorumCertificate) (h : Nat)
    (hv : s.verify_network_record ctx (.quorumCertificate qc) = some h) :
    (s.insert_network_record ctx (.quorumCertificate qc)).verify_network_record ctx
      (.quorumCertificate qc) = none := by
  obtain ⟨hh, hep, hcon, _⟩ := verify_qc_inv s ctx qc h hv
  obtain ⟨f1, f2⟩ := insert_qc_fields s ctx qc h hv
  unfold RecordStoreState.verify_network_record
  dsimp only
  rw [f1, f2]
  simp [hep]

theorem second_verify_timeout (s : RecordStoreState) (ctx : SmrCtx) (t : Timeout)
    (h : Nat) (hv : s.verify_network_record ctx (.timeout t) = some h) :
    (s.insert_network_record ctx (.timeout t)).verify_network_record ctx (.timeout t)
      = none := by
  obtain ⟨hep, hhc, hcr, hcon⟩ := verify_timeout_inv s ctx t h hv
  obtain ⟨f1, f2, f3⟩ := insert_timeout_fields s ctx t h hv
  unfold RecordStoreState.verify_network_record
  dsimp only
  rw [f1, f2]
  rcases f3 with ⟨f4, f5⟩ | f4
  · rw [f4, f5]
    simp [hep, hhc, hcr, alContains_alInsert_self]
  · rw [f4]
    have hne : t.value.round ≠ s.current_round + 1 := by omega
    simp [hep, hhc, hne]

/-- C5: `insert_network_record` is idempotent: inserting the same record
twice yields the same store as inserting it once (the second copy is always
rejected by `verify_network_record`). Proved for all stores, contexts and
records, which covers in particular every reachable store. -/
theorem claim_C5_insert_idempotent (s : RecordStoreState) (ctx : SmrCtx)
    (r : Record) :
    (s.insert_network_record ctx r).insert_network_record ctx r =
      s.insert_network_record ctx r := by
  cases hv : s.verify_network_record ctx r with
  | none =>
    rw [insert_of_verify_none s ctx r hv, insert_of_verify_none s ctx r hv]
  | some h =>
    cases r with
    | block b => exact insert_of_verify_none _ _ _ (second_verify_block s ctx b h hv)
    | vote v => exact insert_of_verify_none _ _ _ (second_verify_vote s ctx v h hv)
    | quorumCertificate qc =>
      exact insert_of_verify_none _ _ _ (second_verify_qc s ctx qc h hv)
    | timeout t =>
      exact insert_of_verify_none _ _ _ (second_verify_timeout s ctx t h hv)

/-! ## C10: the backward quorum-certificate walk terminates without panics -/

theorem verify_block_parent (s : RecordStoreState) (ctx : SmrCtx) (b : Block)
    (h : Nat) (hv : s.verify_network_record ctx (.block b) = some h) :
    b.value.previous_quorum_certificate_hash = s.initial_hash ∨
      ∃ pqc pb, s.quorum_certificate b.value.previous_quorum_certificate_hash
          = some pqc ∧
        s.block pqc.value.certified_block_hash = some pb ∧
        pb.value.round < b.value.round := by
  unfold RecordStoreState.verify_network_record at hv
  dsimp only at hv
  split at hv
  · simp at hv
  · split at hv
    · simp at hv
    · split at hv
      · rename_i hinit
        exact Or.inl hinit
      · rename_i hinit
        split at hv
        · simp at hv
        · rename_i pqc hpqc
          split at hv
          · simp at hv
          · rename_i pb hpb
            split at hv
            · rename_i hlt
              exact Or.inr ⟨pqc, pb, hpqc, hpb, hlt⟩
            · simp at hv

theorem insert_block_store_fields (s : RecordStoreState) (ctx : SmrCtx) (b : Block)
    (h : Nat) (hv : s.verify_network_record ctx (.block b) = some h) :
    (s.insert_network_record ctx (.block b)).quorum_certificates =
        s.quorum_certificates ∧
      (s.insert_network_record ctx (.block b)).initial_hash = s.initial_hash := by
  unfold RecordStoreState.insert_network_record RecordStoreState.try_insert_network_record
  rw [hv]
  dsimp only
  split
  · exact ⟨rfl, rfl⟩
  · exact ⟨rfl, rfl⟩

theorem insert_qc_store_fields (s : RecordStoreState) (ctx : SmrCtx)
    (qc : QuorumCertificate) (h : Nat)
    (hv : s.verify_network_record ctx (.quorumCertificate qc) = some h) :
    (s.insert_network_record ctx (.quorumCertificate qc)).blocks = s.blocks ∧
      (s.insert_network_record ctx (.quorumCertificate qc)).quorum_certificates =
        alInsert s.quorum_certificates ⟨ctx.hashQ qc.value⟩ qc ∧
      (s.insert_network_record ctx (.quorumCertificate qc)).initial_hash =
        s.initial_hash := by
  obtain ⟨hh, _, _, _⟩ := verify_qc_inv s ctx qc h hv
  subst hh
  unfold RecordStoreState.insert_network_record RecordStoreState.try_insert_network_record
  rw [hv]
  dsimp only
  split
  · split
    · refine ⟨?_, ?_, ?_⟩
      · rw [(u3c_store_fields _ _).1, (ucr_preserved _ _).1]
        split
        · rfl
        · rfl
      · rw [(u3c_store_fields _ _).2.1, (ucr_preserved _ _).2.1]
        split
        · rfl
        · rfl
      · rw [(u3c_store_fields _ _).2.2.2, (ucr_preserved _ _).2.2.1]
        split
        · rfl
        · rfl
    · exact ⟨rfl, rfl, rfl⟩
  · exact ⟨rfl, rfl, rfl⟩

theorem insert_timeout_store_fields (s : RecordStoreState) (ctx : SmrCtx)
    (t : Timeout) (h : Nat)
    (hv : s.verify_network_record ctx (.timeout t) = some h) :
    (s.insert_network_record ctx (.timeout t)).blocks = s.blocks ∧
      (s.insert_network_record ctx (.timeout t)).quorum_certificates =
        s.quorum_certificates ∧
      (s.insert_network_record ctx (.timeout t)).initial_hash = s.initial_hash := by
  unfold RecordStoreState.insert_network_record RecordStoreState.try_insert_network_record
  rw [hv]
  dsimp only
  split
  · exact ⟨(ucr_preserved _ _).1, (ucr_preserved _ _).2.1, (ucr_preserved _ _).2.2.1⟩
  · exact ⟨rfl, rfl, rfl⟩

theorem storeInv_new (ih : QuorumCertificateHash) (st : Nat) (e : Nat)
    (cfg : EpochConfiguration) : StoreInv (RecordStoreState.new ih st e cfg) := by
  constructor
  · intro p hp
    simp [RecordStoreState.new] at hp
  · intro p hp
    simp [RecordStoreState.new] at hp

theorem storeInv_insert (s : RecordStoreState) (ctx : SmrCtx) (r : Record)
    (hinv : StoreInv s) : StoreInv (s.insert_network_record ctx r) := by
  cases hv : s.verify_network_record ctx r with
  | none => rw [insert_of_verify_none s ctx r hv]; exact hinv
  | some h =>
    cases r with
    | vote v =>
      obtain ⟨f1, f2, f3, _⟩ := insert_vote_fields s ctx v h hv
      unfold StoreInv StoreInvOn at hinv ⊢
      rw [f1, f2, f3]
      exact hinv
    | timeout t =>
      obtain ⟨f1, f2, f3⟩ := insert_timeout_store_fields s ctx t h hv
      unfold StoreInv StoreInvOn at hinv ⊢
      rw [f1, f2, f3]
      exact hinv
    | block b =>
      obtain ⟨hh, hcon⟩ := verify_block_inv s ctx b h hv
      have hfresh : alGet s.blocks ⟨ctx.hashB b.value⟩ = none :=
        alGet_eq_none_of_not_contains _ _ hcon
      have hpar := verify_block_parent s ctx b h hv
      have fb := insert_block_blocks s ctx b h hv
      obtain ⟨f2, f3⟩ := insert_block_store_fields s ctx b h hv
      unfold StoreInv StoreInvOn at hinv ⊢
      rw [fb, f2, f3]
      constructor
      · intro p hp
        have hold := hinv.1 p hp
        unfold qcBlockOk at hold ⊢
        rw [alGet_alInsert_fresh]
        split
        · rename_i hk
          rw [hk] at hold
          rw [hfresh] at hold
          simp at hold
        · exact hold
      · intro p hp
        rcases mem_alInsert _ _ _ _ hp with hnew | hold
        · subst hnew
          unfold blockParentOk
          rcases hpar with hinit | ⟨pqc, pb, hpqc, hpb, hlt⟩
          · exact Or.inl hinit
          · refine Or.inr ?_
            unfold RecordStoreState.quorum_certificate at hpqc
            rw [hpqc]
            have hmem := alGet_mem _ _ _ hpqc
            have hqb := hinv.1 _ hmem
            unfold qcBlockOk at hqb
            unfold RecordStoreState.block at hpb
            rw [hpb] at hqb
            simp only [Option.map_some] at hqb
            have : pqc.value.round = pb.value.round := (Option.some_inj.mp hqb).symm
            simp [Option.any]
            omega
        · exact hinv.2 p hold
    | quorumCertificate qc =>
      obtain ⟨hh, hep, hcon, b, hb, hbr⟩ := verify_qc_inv s ctx qc h hv
      have hfresh : alGet s.quorum_certificates ⟨ctx.hashQ qc.value⟩ = none :=
        alGet_eq_none_of_not_contains _ _ hcon
      obtain ⟨f1, f2, f3⟩ := insert_qc_store_fields s ctx qc h hv
      unfold StoreInv StoreInvOn at hinv ⊢
      rw [f1, f2, f3]
      constructor
      · intro p hp
        rcases mem_alInsert _ _ _ _ hp with hnew | hold
        · subst hnew
          unfold qcBlockOk
          unfold RecordStoreState.block at hb
          rw [hb]
          simp [hbr]
        · exact hinv.1 p hold
      · intro p hp
        have hold := hinv.2 p hp
        unfold blockParentOk at hold ⊢
        rcases hold with hinit | hany
        · exact Or.inl hinit
        · refine Or.inr ?_
          rw [alGet_alInsert_fresh]
          split
          · rename_i hk
            rw [hk, hfresh] at hany
            simp [Option.any] at hany
          · exact hany

theorem chainE_terminates (s : RecordStoreState) (hinv : StoreInv s) :
    ∀ (fuel : Nat) (h : QuorumCertificateHash) (qc : QuorumCertificate),
      alGet s.quorum_certificates h = some qc → qc.value.round < fuel →
      ∃ l, qc_chainE s h fuel = some l := by
  intro fuel
  induction fuel with
  | zero => intro h qc _ hr; omega
  | succ n ih =>
    intro h qc hqc hr
    by_cases hinit : h = s.initial_hash
    · exact ⟨[], by unfold qc_chainE; rw [if_pos hinit]⟩
    · have hqb := hinv.1 _ (alGet_mem _ _ _ hqc)
      unfold qcBlockOk at hqb
      cases hbl : alGet s.blocks qc.value.certified_block_hash with
      | none => rw [hbl] at hqb; simp at hqb
      | some b =>
        rw [hbl] at hqb
        simp only [Option.map_some] at hqb
        have hbr : b.value.round = qc.value.round := Option.some_inj.mp hqb
        have hnext : ∃ l', qc_chainE s b.value.previous_quorum_certificate_hash n
            = some l' := by
          by_cases hpi : b.value.previous_quorum_certificate_hash = s.initial_hash
          · refine ⟨[], ?_⟩
            cases n with
            | zero => unfold qc_chainE; rw [if_pos hpi]
            | succ m => unfold qc_chainE; rw [if_pos hpi]
          · have hbp := hinv.2 _ (alGet_mem _ _ _ hbl)
            unfold blockParentOk at hbp
            rcases hbp with hinit' | hany
            · exact absurd hinit' hpi
            · cases hpq : alGet s.quorum_certificates
                  b.value.previous_quorum_certificate_hash with
              | none => rw [hpq] at hany; simp [Option.any] at hany
              | some pqc =>
                rw [hpq] at hany
                simp [Option.any] at hany
                exact ih _ pqc hpq (by omega)
        obtain ⟨l', hl'⟩ := hnext
        refine ⟨qc :: l', ?_⟩
        unfold qc_chainE
        rw [if_neg hinit]
        unfold RecordStoreState.quorum_certificate RecordStoreState.block
        rw [hqc]
        dsimp only
        rw [hbl]
        dsimp only
        rw [hl']
        rfl

/-- C10: on every record store reachable by verified insertions the backward
quorum-certificate walk (`BackwardQuorumCertificateIterator`) from any stored
QC hash terminates at the initial hash without panicking: the freshly created
store satisfies `StoreInv`, `insert_network_record` preserves `StoreInv`
(every stored QC's certified block is stored with matching round, and every
stored block's parent is the initial hash or a stored QC of strictly smaller
round), and under `StoreInv` the explicit walk `qc_chainE` from a stored QC
hash succeeds within `round + 1` steps. -/
theorem claim_C10_backward_walk (s : RecordStoreState) (ctx : SmrCtx) :
    (∀ (ih : QuorumCertificateHash) (st e : Nat) (cfg : EpochConfiguration),
      StoreInv (RecordStoreState.new ih st e cfg)) ∧
    (∀ r : Record, StoreInv s → StoreInv (s.insert_network_record ctx r)) ∧
    (∀ (h : QuorumCertificateHash) (qc : QuorumCertificate), StoreInv s →
      alGet s.quorum_certificates h = some qc →
      ∃ l, qc_chainE s h (qc.value.round + 1) = some l) :=
  ⟨fun ih st e cfg => storeInv_new ih st e cfg,
   fun r hinv => storeInv_insert s ctx r hinv,
   fun h qc hinv hqc => chainE_terminates s hinv _ h qc hqc (Nat.lt_succ_self _)⟩

/-- The counterexample store `cexStoreB1` extended with the quorum
certificate `cexQcB1` stored under hash 50. -/
def cexStoreBQ : RecordStoreState :=
  { cexStoreB1 with quorum_certificates := [(⟨50⟩, cexQcB1)] }

/-- C10 witness: `cexStoreBQ` satisfies the invariant and the walk from its
stored QC (round 1) terminates within 2 steps. -/
theorem claim_C10_witness :
    StoreInv cexStoreBQ ∧ ∃ l, qc_chainE cexStoreBQ ⟨50⟩ (1 + 1) = some l := by
  have hinv : StoreInv cexStoreBQ := by decide
  refine ⟨hinv, ?_⟩
  exact (claim_C10_backward_walk cexStoreBQ cexCtx99).2.2 ⟨50⟩ cexQcB1 hinv (by decide)

/-! ## C6: committed_states_after -/

theorem qc_chain_initial (s : RecordStoreState) :
    ∀ n : Nat, qc_chain s s.initial_hash n = [] := by
  intro n
  cases n with
  | zero => rfl
  | succ m => unfold qc_chain; rw [if_pos rfl]

theorem qc_chain_mem_round (s : RecordStoreState) (hinv : StoreInv s) :
    ∀ (n : Nat) (h' : QuorumCertificateHash) (y : QuorumCertificate),
      y ∈ qc_chain s h' n →
      ∃ qc0, alGet s.quorum_certificates h' = some qc0 ∧
        y.value.round ≤ qc0.value.round := by
  intro n
  induction n with
  | zero => intro h' y hy; simp [qc_chain] at hy
  | succ m ih =>
    intro h' y hy
    unfold qc_chain at hy
    split at hy
    · simp at hy
    · rename_i hinit
      cases hqc : alGet s.quorum_certificates h' with
      | none =>
        unfold RecordStoreState.quorum_certificate at hy
        rw [hqc] at hy
        simp at hy
      | some qc =>
        unfold RecordStoreState.quorum_certificate at hy
        rw [hqc] at hy
        dsimp only at hy
        cases hbl : alGet s.blocks qc.value.certified_block_hash with
        | none =>
          unfold RecordStoreState.block at hy
          rw [hbl] at hy
          simp at hy
        | some b =>
          unfold RecordStoreState.block at hy
          rw [hbl] at hy
          dsimp only at hy
          rcases List.mem_cons.mp hy with hhead | htail
          · exact ⟨qc, rfl, by rw [hhead]⟩
          · obtain ⟨qc0', hq0', hle⟩ := ih _ y htail
            have hqb := hinv.1 _ (alGet_mem _ _ _ hqc)
            unfold qcBlockOk at hqb
            rw [hbl] at hqb
            simp only [Option.map_some] at hqb
            have hbr : b.value.round = qc.value.round := Option.some_inj.mp hqb
            have hbp := hinv.2 _ (alGet_mem _ _ _ hbl)
            unfold blockParentOk at hbp
            rcases hbp with hinit' | hany
            · rw [hinit'] at hq0'
              rw [hinit', qc_chain_initial] at htail
              simp at htail
            · rw [hq0'] at hany
              simp [Option.any] at hany
              exact ⟨qc, rfl, by omega⟩

theorem qc_chain_pairwise (s : RecordStoreState) (hinv : StoreInv s) :
    ∀ (n : Nat) (h' : QuorumCertificateHash),
      List.Pairwise (fun a b : QuorumCertificate =>
        b.value.round < a.value.round) (qc_chain s h' n) := by
  intro n
  induction n with
  | zero => intro h'; simp [qc_chain]
  | succ m ih =>
    intro h'
    unfold qc_chain
    split
    · simp
    · rename_i hinit
      cases hqc : alGet s.quorum_certificates h' with
      | none =>
        unfold RecordStoreState.quorum_certificate
        rw [hqc]
        simp
      | some qc =>
        unfold RecordStoreState.quorum_certificate
        rw [hqc]
        dsimp only
        cases hbl : alGet s.blocks qc.value.certified_block_hash with
        | none =>
          unfold RecordStoreState.block
          rw [hbl]
          simp
        | some b =>
          unfold RecordStoreState.block
          rw [hbl]
          dsimp only
          refine List.pairwise_cons.mpr ⟨?_, ih _⟩
          intro y hy
          obtain ⟨qc0', hq0', hle⟩ := qc_chain_mem_round s hinv _ _ y hy
          have hqb := hinv.1 _ (alGet_mem _ _ _ hqc)
          unfold qcBlockOk at hqb
          rw [hbl] at hqb
          simp only [Option.map_some] at hqb
          have hbr : b.value.round = qc.value.round := Option.some_inj.mp hqb
          have hbp := hinv.2 _ (alGet_mem _ _ _ hbl)
          unfold blockParentOk at hbp
          rcases hbp with hinit' | hany
          · rw [hinit', qc_chain_initial] at hy
            simp at hy
          · rw [hq0'] at hany
            simp [Option.any] at hany
            omega

theorem takeWhile_eq_filter_desc (after : Nat) :
    ∀ l : List QuorumCertificate,
      List.Pairwise (fun a b : QuorumCertificate =>
        b.value.round < a.value.round) l →
      l.takeWhile (fun qc => after < qc.value.round) =
        l.filter (fun qc => after < qc.value.round) := by
  intro l hl
  induction l with
  | nil => rfl
  | cons a t iht =>
    rcases List.pairwise_cons.mp hl with ⟨hall, ht⟩
    rw [List.takeWhile_cons, List.filter_cons]
    by_cases hp : after < a.value.round
    · rw [if_pos (by simpa using hp), if_pos (by simpa using hp)]
      rw [iht ht]
    · rw [if_neg (by simpa using hp), if_neg (by simpa using hp)]
      have hnone : t.filter (fun qc => decide (after < qc.value.round)) = [] := by
        apply List.filter_eq_nil_iff.mpr
        intro x hx
        have := hall x hx
        simp
        omega
      rw [hnone]

/-- C6: `committed_states_after(after_round)` returns exactly the
`(round, state)` pairs of the QCs on the backward chain from the highest
commit certificate, excluding the chain's two topmost QCs, restricted
(filtered) to rounds strictly greater than `after_round`, in strictly
increasing round order; it returns `[]` when no commit certificate exists. -/
theorem claim_C6_committed_states (s : RecordStoreState) (after_round : Nat)
    (hinv : StoreInv s) :
    (s.highest_commit_certificate_hash = none →
      s.committed_states_after after_round = []) ∧
    s.committed_states_after after_round =
      ((((qc_chain s (s.highest_commit_certificate_hash.getD s.initial_hash)
            s.fuel).drop 2).filter
          (fun qc => after_round < qc.value.round)).map
        (fun qc => (qc.value.round, qc.value.state))).reverse ∧
    List.Pairwise (fun a b : Nat × Nat => a.1 < b.1)
      (s.committed_states_after after_round) := by
  have hpw : List.Pairwise (fun a b : QuorumCertificate =>
      b.value.round < a.value.round)
      ((qc_chain s (s.highest_commit_certificate_hash.getD s.initial_hash)
        s.fuel).drop 2) :=
    (qc_chain_pairwise s hinv _ _).sublist (List.drop_sublist _ _)
  have hthw := takeWhile_eq_filter_desc after_round _ hpw
  constructor
  · intro hnone
    unfold RecordStoreState.committed_states_after
    rw [hnone]
    simp only [Option.getD]
    rw [qc_chain_initial]
    rfl
  constructor
  · unfold RecordStoreState.committed_states_after
    dsimp only
    rw [hthw]
  · unfold RecordStoreState.committed_states_after
    dsimp only
    rw [List.pairwise_reverse, List.pairwise_map]
    exact hpw.sublist (List.takeWhile_sublist _)

/-- A store holding a full 3-chain: blocks `b1 b2 b3` at rounds 1-3 and QCs
at hashes 11/12/13, with the commit certificate at hash 13 committing round
1 (state 10). -/
def cexStore3Chain : RecordStoreState :=
  { cexStore0 with
    blocks :=
      [(⟨1⟩, ⟨{ command := 0, time := 0, previous_quorum_certificate_hash := ⟨100⟩,
                round := 1, author := 0 }, 0⟩),
       (⟨2⟩, ⟨{ command := 0, time := 0, previous_quorum_certificate_hash := ⟨11⟩,
                round := 2, author := 0 }, 0⟩),
       (⟨3⟩, ⟨{ command := 0, time := 0, previous_quorum_certificate_hash := ⟨12⟩,
                round := 3, author := 0 }, 0⟩)]
    quorum_certificates :=
      [(⟨11⟩, ⟨{ epoch_id := 0, round := 1, certified_block_hash := ⟨1⟩, state := 10,
                 committed_state := none, votes := [(0, 0)], author := 0 }, 0⟩),
       (⟨12⟩, ⟨{ epoch_id := 0, round := 2, certified_block_hash := ⟨2⟩, state := 20,
                 committed_state := none, votes := [(0, 0)], author := 0 }, 0⟩),
       (⟨13⟩, ⟨{ epoch_id := 0, round := 3, certified_block_hash := ⟨3⟩, state := 30,
                 committed_state := some 10, votes := [(0, 0)], author := 0 }, 0⟩)]
    highest_quorum_certificate_round := 3
    highest_quorum_certificate_hash := ⟨13⟩
    current_round := 4
    highest_committed_round := 1
    highest_commit_certificate_hash := some ⟨13⟩ }

/-- C6 witness: on the 3-chain store the commit walk (after round 0) delivers
exactly the pair `(1, 10)`, in sorted order. -/
theorem claim_C6_witness :
    StoreInv cexStore3Chain ∧
      cexStore3Chain.committed_states_after 0 = [(1, 10)] ∧
      List.Pairwise (fun a b : Nat × Nat => a.1 < b.1)
        (cexStore3Chain.committed_states_after 0) := by
  have hinv : StoreInv cexStore3Chain := by decide
  exact ⟨hinv, by decide, (claim_C6_committed_states cexStore3Chain 0 hinv).2.2⟩

/-! ## C7: handle_notification -/

theorem nodeInsert_epoch (node : NodeState) (e : Nat) (r : Record) (ctx : SmrCtx) :
    (node.insert_network_record e r ctx).epoch_id = node.epoch_id := by
  unfold NodeState.insert_network_record
  split
  · rfl
  · rfl

/-- The `should_sync` predicate as amended: the spec's three triggers plus
the two epoch triggers present in the code (a notified certificate from a
strictly greater epoch also forces a sync), with the round comparisons read
from the store after the corresponding certificate insertions, as the
handler does. -/
def shouldSyncAmended (node : NodeState) (ctx : SmrCtx)
    (t : DataSyncNotification) : Bool :=
  let n1 := match t.highest_commit_certificate with
    | none => node
    | some hcc => node.insert_network_record hcc.value.epoch_id
        (.quorumCertificate hcc) ctx
  let n2 := match t.highest_quorum_certificate with
    | none => n1
    | some hqc => n1.insert_network_record hqc.value.epoch_id
        (.quorumCertificate hqc) ctx
  decide (t.current_epoch > node.epoch_id) ||
  (match t.highest_commit_certificate with
   | none => false
   | some hcc =>
     decide (hcc.value.epoch_id > node.epoch_id) ||
     (decide (hcc.value.epoch_id = node.epoch_id) &&
      decide (hcc.value.round > n1.record_store.highest_committed_round + 2))) ||
  (match t.highest_quorum_certificate with
   | none => false
   | some hqc =>
     decide (hqc.value.epoch_id > node.epoch_id) ||
     (decide (hqc.value.epoch_id = node.epoch_id) &&
      decide (hqc.value.round > n2.record_store.highest_quorum_certificate_round)))

/-- The `should_sync` predicate exactly as the claim words it: only the three
triggers (notifier in a strictly greater epoch; commit certificate of the
local epoch beyond `highest_committed_round + 2`; highest QC of the local
epoch beyond `highest_quorum_certificate_round`). -/
def shouldSyncOriginal (node : NodeState) (ctx : SmrCtx)
    (t : DataSyncNotification) : Bool :=
  let n1 := match t.highest_commit_certificate with
    | none => node
    | some hcc => node.insert_network_record hcc.value.epoch_id
        (.quorumCertificate hcc) ctx
  let n2 := match t.highest_quorum_certificate with
    | none => n1
    | some hqc => n1.insert_network_record hqc.value.epoch_id
        (.quorumCertificate hqc) ctx
  decide (t.current_epoch > node.epoch_id) ||
  (match t.highest_commit_certificate with
   | none => false
   | some hcc =>
     decide (hcc.value.epoch_id = node.epoch_id) &&
     decide (hcc.value.round > n1.record_store.highest_committed_round + 2)) ||
  (match t.highest_quorum_certificate with
   | none => false
   | some hqc =>
     decide (hqc.value.epoch_id = node.epoch_id) &&
     decide (hqc.value.round > n2.record_store.highest_quorum_certificate_round))

/-- C7 (amended): `handle_notification` returns a request exactly when
`shouldSyncAmended` holds, and the request returned is the freshly built one
(`create_request_internal`) of the final node state. -/
theorem handle_tail (N : NodeState) (c : Bool) :
    (((if c = true then (N, some N.create_request_internal)
        else (N, none)) : NodeState × Option DataSyncRequest).2).isSome = c ∧
      ((if c = true then (N, some N.create_request_internal)
        else (N, none)) : NodeState × Option DataSyncRequest).2 =
        (if c = true
         then some (((if c = true then (N, some N.create_request_internal)
            else (N, none)) : NodeState × Option DataSyncRequest).1.create_request_internal)
         else none) := by
  cases c
  · exact ⟨rfl, rfl⟩
  · exact ⟨rfl, rfl⟩

theorem claim_C7_handle_notification (node : NodeState) (ctx : SmrCtx)
    (t : DataSyncNotification) :
    ((node.handle_notification ctx t).2).isSome = shouldSyncAmended node ctx t ∧
      (node.handle_notification ctx t).2 =
        (if shouldSyncAmended node ctx t
         then some ((node.handle_notification ctx t).1.create_request_internal)
         else none) := by
  unfold NodeState.handle_notification shouldSyncAmended
  cases hc : t.highest_commit_certificate with
  | none =>
    cases hq : t.highest_quorum_certificate with
    | none =>
      dsimp only
      simp only [Bool.or_false]
      exact handle_tail _ _
    | some hqc =>
      dsimp only
      rw [nodeInsert_epoch]
      simp only [Bool.or_false]
      exact handle_tail _ _
  | some hcc =>
    cases hq : t.highest_quorum_certificate with
    | none =>
      dsimp only
      rw [nodeInsert_epoch]
      simp only [Bool.or_false]
      exact handle_tail _ _
    | some hqc =>
      dsimp only
      rw [nodeInsert_epoch, nodeInsert_epoch, nodeInsert_epoch]
      exact handle_tail _ _

/-- A notification from a peer claiming our epoch but carrying a commit
certificate of a higher epoch. -/
def cexNotifEpochLie : DataSyncNotification where
  current_epoch := 0
  highest_commit_certificate :=
    some ⟨{ epoch_id := 1, round := 9, certified_block_hash := ⟨1⟩, state := 0,
            committed_state := none, votes := [], author := 0 }, 0⟩
  highest_quorum_certificate := none
  timeouts := []
  current_vote := none
  proposed_block := none

/-- C7 counterexample: on `cexNotifEpochLie` none of the claim's three
triggers holds (same notifier epoch, commit certificate not of the local
epoch, no highest QC), yet the code returns a request, because it also syncs
when the notified commit certificate's epoch exceeds the local epoch. -/
theorem claim_C7_counterexample :
    ((cexNode0.handle_notification cexCtx99 cexNotifEpochLie).2).isSome = true ∧
      shouldSyncOriginal cexNode0 cexCtx99 cexNotifEpochLie = false := by
  decide

/-- A notification advertising a highest QC at round 10 of the local epoch. -/
def cexNotifHqc : DataSyncNotification where
  current_epoch := 0
  highest_commit_certificate := none
  highest_quorum_certificate :=
    some ⟨{ epoch_id := 0, round := 10, certified_block_hash := ⟨1⟩, state := 0,
            committed_state := none, votes := [], author := 0 }, 0⟩
  timeouts := []
  current_vote := none
  proposed_block := none

/-- C7 witness: a same-epoch highest QC beyond the local highest QC round
makes the handler return the freshly built request. -/
theorem claim_C7_witness :
    ((cexNode0.handle_notification cexCtx99 cexNotifHqc).2).isSome = true ∧
      (cexNode0.handle_notification cexCtx99 cexNotifHqc).2 =
        some ((cexNode0.handle_notification cexCtx99 cexNotifHqc).1.create_request_internal) := by
  have h := claim_C7_handle_notification cexNode0 cexCtx99 cexNotifHqc
  constructor
  · rw [h.1]
    decide
  · rw [h.2]
    rw [if_pos (by decide)]

/-! ## C1: latest_voted_round across update_node -/

theorem ppa_epoch (node : NodeState) (pa : PacemakerUpdateActions) (clock : Int)
    (ctx : SmrCtx) :
    (node.process_pacemaker_actions pa clock ctx).1.epoch_id = node.epoch_id := by
  unfold NodeState.process_pacemaker_actions
  cases pa.should_create_timeout <;> cases pa.should_propose_block <;> rfl

theorem ppa_lvr (node : NodeState) (pa : PacemakerUpdateActions) (clock : Int)
    (ctx : SmrCtx) :
    (node.process_pacemaker_actions pa clock ctx).1.latest_voted_round =
      (match pa.should_create_timeout with
       | none => node.latest_voted_round
       | some ρ => max node.latest_voted_round ρ) := by
  unfold NodeState.process_pacemaker_actions
  cases pa.should_create_timeout <;> cases pa.should_propose_block <;> rfl

theorem ppa_lvr_ge (node : NodeState) (pa : PacemakerUpdateActions) (clock : Int)
    (ctx : SmrCtx) :
    node.latest_voted_round ≤
      (node.process_pacemaker_actions pa clock ctx).1.latest_voted_round := by
  rw [ppa_lvr]
  cases pa.should_create_timeout with
  | none => exact Nat.le_refl _
  | some ρ => exact Nat.le_max_left _ _

theorem ppa_lvr_ge' (node : NodeState) (pm' : PacemakerState)
    (pa : PacemakerUpdateActions) (clock : Int) (ctx : SmrCtx) :
    node.latest_voted_round ≤
      ((({ node with pacemaker := pm' } : NodeState).process_pacemaker_actions
        pa clock ctx).1).latest_voted_round :=
  ppa_lvr_ge { node with pacemaker := pm' } pa clock ctx

theorem proposed_block_inv (s : RecordStoreState) (pm : PacemakerState)
    (bh : BlockHash) (br : Nat) (p : Nat)
    (h : s.proposed_block pm = some (bh, br, p)) :
    ∃ b, s.block bh = some b ∧ b.value.round = br := by
  unfold RecordStoreState.proposed_block at h
  split at h
  · simp at h
  · split at h
    · simp at h
    · split at h
      · simp at h
      · split at h
        · simp at h
        · rename_i b hb
          simp only [Option.some_inj, Prod.mk.injEq] at h
          exact ⟨b, h.1 ▸ hb, h.2.1⟩

theorem create_vote_ghost_round (s : RecordStoreState) (ctx : SmrCtx)
    (bh : BlockHash) (v : Vote_) (h : (s.create_vote ctx bh).2 = some v) :
    v.round = ((s.block bh).map (fun b => b.value.round)).getD 0 := by
  unfold RecordStoreState.create_vote at h
  split at h
  · dsimp only at h
    exact Option.noConfusion h
  · dsimp only at h
    have := Option.some_inj.mp h
    rw [← this]

theorem vote_step_epoch (node : NodeState) (ctx : SmrCtx)
    (a : NodeUpdateActions) :
    (node.vote_step ctx a).1.epoch_id = node.epoch_id := by
  unfold NodeState.vote_step
  split
  · split
    · dsimp only
      split
      · rfl
      · rfl
    · rfl
  · rfl

theorem vote_step_lvr_ge (node : NodeState) (ctx : SmrCtx)
    (a : NodeUpdateActions) :
    node.latest_voted_round ≤ (node.vote_step ctx a).1.latest_voted_round := by
  unfold NodeState.vote_step
  split
  · rename_i bh br p hp
    split
    · rename_i hguard
      dsimp only
      split
      · dsimp only
        omega
      · dsimp only
        omega
    · exact Nat.le_refl _
  · exact Nat.le_refl _

theorem vote_step_ghost (node : NodeState) (ctx : SmrCtx) (a : NodeUpdateActions)
    (v : Vote_) (h : (node.vote_step ctx a).2.2 = some v) :
    v.round > node.latest_voted_round := by
  unfold NodeState.vote_step at h
  split at h
  · rename_i bh br p hp
    split at h
    · rename_i hguard
      dsimp only at h
      cases hcv : (({ node with
          latest_voted_round := br
          locked_round := max node.locked_round
            (node.record_store.second_previous_round bh) } :
            NodeState).record_store.create_vote ctx bh).2 with
      | none =>
        rw [hcv] at h
        dsimp only at h
        exact Option.noConfusion h
      | some v' =>
        rw [hcv] at h
        dsimp only at h
        have hv : v' = v := Option.some_inj.mp h
        subst hv
        obtain ⟨b, hb, hbr⟩ := proposed_block_inv _ _ _ _ _ hp
        have hr := create_vote_ghost_round _ _ _ _ hcv
        rw [hr]
        have : (({ node with
            latest_voted_round := br
            locked_round := max node.locked_round
              (node.record_store.second_previous_round bh) } :
              NodeState).record_store.block bh) = some b := hb
        rw [this]
        show node.latest_voted_round < b.value.round
        omega
    · dsimp only at h
      exact Option.noConfusion h
  · dsimp only at h
    exact Option.noConfusion h

theorem process_commits_cases (node : NodeState) (ctx : SmrCtx) :
    ((node.process_commits ctx).epoch_id = node.epoch_id ∧
      (node.process_commits ctx).latest_voted_round = node.latest_voted_round) ∨
    ((node.process_commits ctx).epoch_id > node.epoch_id ∧
      (node.process_commits ctx).latest_voted_round = 0) := by
  unfold NodeState.process_commits
  generalize (node.record_store.committed_states_after
    node.tracker.highest_committed_round) = l
  induction l generalizing node with
  | nil => exact Or.inl ⟨rfl, rfl⟩
  | cons p rest ih =>
    obtain ⟨ρ, st⟩ := p
    unfold processCommitsLoop
    dsimp only
    split
    · rename_i hgt
      exact Or.inr ⟨hgt, rfl⟩
    · exact ih node

theorem lvr_compose (nodeIn nodeMid : NodeState) (ctx : SmrCtx)
    (hep : nodeMid.epoch_id = nodeIn.epoch_id)
    (hlv : nodeIn.latest_voted_round ≤ nodeMid.latest_voted_round) :
    ((nodeMid.process_commits ctx).epoch_id = nodeIn.epoch_id ∧
      nodeIn.latest_voted_round ≤
        (nodeMid.process_commits ctx).latest_voted_round) ∨
    (¬((nodeMid.process_commits ctx).epoch_id = nodeIn.epoch_id) ∧
      (nodeMid.process_commits ctx).latest_voted_round = 0) := by
  rcases process_commits_cases nodeMid ctx with ⟨he, hl⟩ | ⟨he, hl⟩
  · exact Or.inl ⟨he.trans hep, hl ▸ hlv⟩
  · refine Or.inr ⟨?_, hl⟩
    omega

theorem tracker_step_epoch (n : NodeState) (a : NodeUpdateActions) (clock : Int) :
    ((n.tracker_step a clock).1).epoch_id = n.epoch_id := by
  unfold NodeState.tracker_step
  dsimp only
  split
  · rfl
  · rfl

theorem tracker_step_lvr (n : NodeState) (a : NodeUpdateActions) (clock : Int) :
    ((n.tracker_step a clock).1).latest_voted_round = n.latest_voted_round := by
  unfold NodeState.tracker_step
  dsimp only
  split
  · rfl
  · rfl

theorem update_node_master (node : NodeState) (ctx : SmrCtx) (clock : Int) :
    ((node.update_node ctx clock).1.epoch_id = node.epoch_id ∧
      node.latest_voted_round ≤ (node.update_node ctx clock).1.latest_voted_round) ∨
    (¬((node.update_node ctx clock).1.epoch_id = node.epoch_id) ∧
      (node.update_node ctx clock).1.latest_voted_round = 0) := by
  unfold NodeState.update_node
  dsimp only
  rw [tracker_step_epoch, tracker_step_lvr]
  refine lvr_compose node _ ctx ?_ ?_
  · dsimp only
    rw [vote_step_epoch, ppa_epoch]
  · dsimp only
    refine le_trans ?_ (vote_step_lvr_ge _ _ _)
    exact ppa_lvr_ge' _ _ _ _ _

/-- C1 (amended): across a call to `update_node` that does not change the
epoch, `latest_voted_round` never decreases (timeout creation only clamps it
upward); an epoch change during `process_commits` resets it to 0; any vote
created by the call has a round strictly greater than the incoming
`latest_voted_round` (the proposal is voted on only when its round beats
`latest_voted_round` after the timeout clamp and its previous round is at
least `locked_round`, and `latest_voted_round` is set to the block's round
before the vote is created); a pacemaker request to create a timeout at
round `ρ` raises `latest_voted_round` to `max latest_voted_round ρ`. -/
theorem claim_C1_voting_rounds (node : NodeState) (ctx : SmrCtx) (clock : Int) :
    ((node.update_node ctx clock).1.epoch_id = node.epoch_id →
      node.latest_voted_round ≤ (node.update_node ctx clock).1.latest_voted_round) ∧
    (¬((node.update_node ctx clock).1.epoch_id = node.epoch_id) →
      (node.update_node ctx clock).1.latest_voted_round = 0) ∧
    (∀ v : Vote_, (node.update_node ctx clock).2.2 = some v →
      v.round > node.latest_voted_round) ∧
    (∀ (pa : PacemakerUpdateActions) (ρ : Nat), pa.should_create_timeout = some ρ →
      (node.process_pacemaker_actions pa clock ctx).1.latest_voted_round =
        max node.latest_voted_round ρ) := by
  refine ⟨?_, ?_, ?_, ?_⟩
  · intro hep
    rcases update_node_master node ctx clock with ⟨_, hl⟩ | ⟨hne, _⟩
    · exact hl
    · exact absurd hep hne
  · intro hne
    rcases update_node_master node ctx clock with ⟨he, _⟩ | ⟨_, hl⟩
    · exact absurd he hne
    · exact hl
  · intro v hv
    unfold NodeState.update_node at hv
    dsimp only at hv
    refine lt_of_le_of_lt ?_ (vote_step_ghost _ ctx _ v hv)
    exact ppa_lvr_ge' _ _ _ _ _
  · intro pa ρ hsc
    rw [ppa_lvr]
    rw [hsc]

/-- Context whose epoch oracle reports epoch 1 for any state ≥ 10. -/
def cexCtxEpoch : SmrCtx :=
  { cexCtx99 with read_epoch_id := fun s => if 10 ≤ s then 1 else 0 }

/-- A pacemaker already at active round 4 of epoch 0 (no round re-entry),
with another node as leader and a long round duration. -/
def cexPm4 : PacemakerState :=
  { cexPm0 with
    active_round := 4
    active_leader := some 1
    active_round_duration := 1000000 }

/-- A node of epoch 0 with `latest_voted_round = 5` holding the full 3-chain
whose commit (state 10) moves the epoch oracle to epoch 1. -/
def cexNodeEpoch : NodeState where
  record_store := cexStore3Chain
  pacemaker := cexPm4
  epoch_id := 0
  latest_voted_round := 5
  locked_round := 1
  latest_query_all_time := 0
  tracker := cexTracker0
  past_record_stores := []

/-- C1 counterexample: a single `update_node` call that delivers a commit
whose state starts epoch 1 resets `latest_voted_round` from 5 to 0 — so
`latest_voted_round` is not monotonically non-decreasing across every call
to `update_node`, as the claim states. -/
theorem claim_C1_counterexample :
    cexNodeEpoch.latest_voted_round = 5 ∧
      ((cexNodeEpoch.update_node cexCtxEpoch 0).1).epoch_id = 1 ∧
      ((cexNodeEpoch.update_node cexCtxEpoch 0).1).latest_voted_round = 0 ∧
      ¬(cexNodeEpoch.latest_voted_round ≤
        ((cexNodeEpoch.update_node cexCtxEpoch 0).1).latest_voted_round) := by
  decide

def cexPaTimeout7 : PacemakerUpdateActions :=
  { PacemakerUpdateActions.default with should_create_timeout := some 7 }

/-- C1 witness: an `update_node` call that keeps the epoch leaves
`latest_voted_round` non-decreasing, and a pacemaker timeout request at
round 7 clamps `latest_voted_round` to `max latest_voted_round 7`. -/
theorem claim_C1_witness :
    ((cexNode0.update_node cexCtx99 0).1).epoch_id = cexNode0.epoch_id ∧
      cexNode0.latest_voted_round ≤
        ((cexNode0.update_node cexCtx99 0).1).latest_voted_round ∧
      ((cexNode0.process_pacemaker_actions cexPaTimeout7 0 cexCtx99).1).latest_voted_round
        = max cexNode0.latest_voted_round 7 := by
  have h := claim_C1_voting_rounds cexNode0 cexCtx99 0
  exact ⟨by decide, h.1 (by decide), h.2.2.2 cexPaTimeout7 7 (by decide)⟩
